import Mathlib

/-
Verification of the web-shooter server core (server/src/world.ts and
server/src/room.ts) against its natural-language specification.

Modelling conventions:
* JavaScript numbers (IEEE doubles) are modelled as exact rationals.
* Math.sqrt / Math.hypot are modelled by ratSqrt, an exact rational square
  root on perfect squares; all concrete inputs below are chosen so that the
  square roots involved are exact (Pythagorean data), so no rounding issue
  arises in any evaluated instance.
* JS Map objects are modelled as association lists in insertion order
  (JS Map iteration order is insertion order); Map.get is find?, Map.set on
  a fresh key is an append, Map.delete is a filter.  Deleting entries while
  iterating a JS Map only hides entries not yet visited, which the model
  reproduces by iterating over a snapshot of keys and re-looking each key up
  in the current list (a deleted key fails the lookup and is skipped).
* Optional TS fields are Option; `a ?? b` is Option.getD.
* Side channels that do not touch simulation state (socket emits, toasts)
  are not modelled; deferred timers (respawn, pickup respawn) happen outside
  the tick and are outside the scope of the per-tick functions below.
-/

namespace WebShooter

/-- Descending search for the integer square root (floor), structurally
recursive so that concrete instances evaluate inside the kernel. -/
def sqrtAux : Nat → Nat → Nat
  | 0, _ => 0
  | fuel+1, n => if (fuel+1) * (fuel+1) ≤ n then fuel+1 else sqrtAux fuel n

/-- Integer square root (floor). -/
def natSqrtQ (n : Nat) : Nat := sqrtAux n n

/-- Exact rational square root used to model Math.sqrt / Math.hypot.
It is exact whenever numerator and denominator are perfect squares, which
holds for every concrete input evaluated in this file. -/
def ratSqrt (q : ℚ) : ℚ :=
  if q ≤ 0 then 0 else (natSqrtQ q.num.toNat : ℚ) / (natSqrtQ q.den : ℚ)

/-- Math.hypot(x, y) = sqrt(x*x + y*y). -/
def hypotQ (x y : ℚ) : ℚ := ratSqrt (x * x + y * y)

/-- room.ts: const clamp = (value, min, max) => Math.max(min, Math.min(max, value)). -/
def clampQ (value lo hi : ℚ) : ℚ := max lo (min hi value)

/-- shared/protocol.ts: ARENA = { w: 1200, h: 800 }. -/
def ARENA_W : ℚ := 1200
/-- shared/protocol.ts: ARENA = { w: 1200, h: 800 }. -/
def ARENA_H : ℚ := 800

/-- shared/protocol.ts: AbilityType (closed string union). -/
inductive Ability
  | echo | time_bubble | phase_dash | shield | rift_sniper | pulse_nova
  | orbital_strike | linked_portals | annihilation_bouncer | void_slice
  deriving Repr, DecidableEq

/-- shared/protocol.ts: GameEvent (the variants the modelled code emits). -/
inductive GEvent
  | hit (targetId byRootId : String)
  | death (id byRootId : String)
  | spawnEcho (ownerId echoId : String)
  | shieldHitEv (id : String) (hpLeft : ℚ)
  | shieldBreakEv (id : String)
  | novaFire (byId : String)
  | strikeMark (id : String) (x y etaMs : ℚ)
  | strikeBoom (id : String) (x y r : ℚ)
  deriving Repr, DecidableEq

/-- shared/protocol.ts: BulletState, with the optional modifier fields used by
world.ts and room.ts. -/
structure Bullet where
  id : String
  ownerId : String
  ownerRootId : String
  x : ℚ
  y : ℚ
  vx : ℚ
  vy : ℚ
  ttlMs : ℚ
  damage : Option ℚ := none
  r : Option ℚ := none
  radius : Option ℚ := none
  bouncesLeft : Option ℚ := none
  isSlash : Bool := false
  reflectsLeft : Option ℚ := none
  lastHitTargetId : Option String := none
  lastHitAtMs : Option ℚ := none
  burstId : Option String := none
  portalJumpsLeft : Option ℚ := none
  portalCooldownUntilMs : Option ℚ := none
  bulletPortalCooldownUntilMs : Option ℚ := none
  deriving Repr, DecidableEq

/-- shared/protocol.ts: PlayerState. -/
structure Player where
  id : String
  name : String := ""
  x : ℚ
  y : ℚ
  r : ℚ := 18
  hp : ℚ
  maxHp : ℚ := 3
  alive : Bool := true
  kills : Nat := 0
  deaths : Nat := 0
  isEcho : Bool := false
  ownerId : Option String := none
  isBot : Bool := false
  heldItem : Option Ability := none
  shieldHp : Option ℚ := some 0
  deriving Repr, DecidableEq

/-- players.get(pid) on the players map. -/
def findPlayer (ps : List Player) (pid : String) : Option Player :=
  ps.find? (fun p => p.id == pid)

/-- In-place mutation of the player object with the given id. -/
def updatePlayer (ps : List Player) (pid : String) (f : Player → Player) : List Player :=
  ps.map (fun p => if p.id == pid then f p else p)

/-- players.delete(pid). -/
def removePlayer (ps : List Player) (pid : String) : List Player :=
  ps.filter (fun p => p.id != pid)

/-- bullets.get(bid) on the bullets map. -/
def findBullet (bs : List Bullet) (bid : String) : Option Bullet :=
  bs.find? (fun b => b.id == bid)

/-- In-place mutation of the bullet object with the given id. -/
def updateBullet (bs : List Bullet) (bid : String) (f : Bullet → Bullet) : List Bullet :=
  bs.map (fun b => if b.id == bid then f b else b)

/-- Lookup in an id-keyed rational map (e.g. shieldUntilMs, lastShotAtMs). -/
def lookupMs (m : List (String × ℚ)) (k : String) : Option ℚ :=
  (m.find? (fun e => e.1 == k)).map Prod.snd

/-- Map.set: overwrite the entry if present, else append. -/
def setMs (m : List (String × ℚ)) (k : String) (v : ℚ) : List (String × ℚ) :=
  if m.any (fun e => e.1 == k) then m.map (fun e => if e.1 == k then (k, v) else e)
  else m ++ [(k, v)]

/-- Map.delete on an id-keyed rational map. -/
def eraseMs (m : List (String × ℚ)) (k : String) : List (String × ℚ) :=
  m.filter (fun e => e.1 != k)

/-! ## world.ts : the bullet and collision engine

`stepBullets` is modelled with its Room instantiation of the two stateful
callbacks: `shieldHit` is Room.handleShieldHit (it consumes a shield charge
on the player record and reads Room.shieldUntilMs) and `onDeath` is
Room.handleDeath restricted to its synchronous in-tick effect (echoes are
deleted from the players map; for others the shield is cleared; the respawn
it schedules is a deferred timer outside the tick).  The remaining hooks
(`bulletSpeedMultiplier`, `isInvulnerable`, `shouldIgnoreHit`) do not mutate
simulation state relevant to the claims and stay parameters.  (Room's
shouldIgnoreNovaHit writes a nova cooldown stamp only for bullets carrying a
burstId; no claim involves nova bullets.) -/

/-- The collision state `stepBullets` operates on: the bullets map, the
players map, Room.shieldUntilMs, and the events array. -/
structure World where
  bullets : List Bullet
  players : List Player
  shieldUntil : List (String × ℚ)
  events : List GEvent
  deriving Repr, DecidableEq

/-- The parameters of `stepBullets` (world.ts StepParams). -/
structure StepParams where
  dtSeconds : ℚ
  arenaW : ℚ := ARENA_W
  arenaH : ℚ := ARENA_H
  nowMs : ℚ
  speedMult : ℚ → ℚ → ℚ := fun _ _ => 1
  isInvulnerable : String → Bool := fun _ => false
  ignoreHit : Bullet → String → ℚ → Bool := fun _ _ _ => false
  allowDamage : Bool := true

/-- world.ts: bullet.r ?? bullet.radius ?? BULLET_RADIUS (= 3). -/
def bulletRadius (b : Bullet) : ℚ := (b.r.getD (b.radius.getD 3))

/-- world.ts stepBullets, integration step of the first loop:
position += velocity * dt * speedMult, ttl -= dt * 1000. -/
def integrate (P : StepParams) (b : Bullet) : Bullet :=
  let mult := P.speedMult b.x b.y
  { b with
    x := b.x + b.vx * P.dtSeconds * mult
    y := b.y + b.vy * P.dtSeconds * mult
    ttlMs := b.ttlMs - P.dtSeconds * 1000 }

/-- world.ts stepBullets, x-wall handling for bullets with a bounce budget;
returns the updated bullet and whether an x-wall was crossed. -/
def bounceX (w radius : ℚ) (b : Bullet) : Bullet × Bool :=
  if b.x - radius < 0 then ({ b with x := radius, vx := |b.vx| }, true)
  else if b.x + radius > w then ({ b with x := w - radius, vx := -|b.vx| }, true)
  else (b, false)

/-- world.ts stepBullets, y-wall handling for bullets with a bounce budget;
returns the updated bullet and whether a y-wall was crossed. -/
def bounceY (h radius : ℚ) (b : Bullet) : Bullet × Bool :=
  if b.y - radius < 0 then ({ b with y := radius, vy := |b.vy| }, true)
  else if b.y + radius > h then ({ b with y := h - radius, vy := -|b.vy| }, true)
  else (b, false)

/-- world.ts stepBullets, body of the first loop for one bullet: integrate,
then wall-bounce (bounce bullets) or out-of-bounds cull (others), then the
ttl check.  Returns the updated bullet and whether it was added to
removeIds.  In the source the non-slash and slash out-of-bounds branches
are two textually identical branches; they are merged here. -/
def moveBullet (P : StepParams) (b0 : Bullet) : Bullet × Bool :=
  let b := integrate P b0
  let radius := bulletRadius b
  let step :=
    match b0.bouncesLeft with
    | some n =>
      let res1 := bounceX P.arenaW radius b
      let res2 := bounceY P.arenaH radius res1.1
      if res1.2 || res2.2 then
        let b2 := res2.1
        ({ b2 with
            bouncesLeft := some (n - 1)
            vx := b2.vx * 2
            vy := b2.vy * 2
            damage := some (b2.damage.getD 1 * 2)
            radius := some (radius * (4/5)) },
         decide (n - 1 ≤ 0))
      else (res2.1, false)
    | none =>
      (b, decide (b.x < -12 ∨ b.y < -12 ∨ b.x > P.arenaW + 12 ∨ b.y > P.arenaH + 12))
  (step.1, step.2 || decide (step.1.ttlMs ≤ 0))

/-- world.ts stepBullets, first loop over all bullets: every bullet is moved
and the ids marked for removal are collected. -/
def movePhase (P : StepParams) (bs : List Bullet) : List Bullet × List String :=
  let moved := bs.map (moveBullet P)
  (moved.map Prod.fst, (moved.filter Prod.snd).map (fun m => m.1.id))

/-- world.ts stepBullets, the projectile spawned when a slash reflects the
bullet b: launched from the slash along its normalized direction (sdx, sdy)
at SLASH_REFLECT_SPEED_MULT (= 1.2) times max(1, |velocity of b|), owned by
the slash owner, with ttl max(120, ttl of b). -/
def reflectSpawn (nowMs : ℚ) (slash : Bullet) (sdx sdy slashRadius : ℚ) (b : Bullet) : Bullet :=
  let speed := max 1 (hypotQ b.vx b.vy)
  { id := b.id ++ "-r-" ++ toString nowMs
    ownerId := slash.ownerId
    ownerRootId := slash.ownerRootId
    x := slash.x + sdx * (slashRadius + 4)
    y := slash.y + sdy * (slashRadius + 4)
    vx := sdx * speed * (6/5)
    vy := sdy * speed * (6/5)
    ttlMs := max 120 b.ttlMs }

/-- world.ts stepBullets, inner loop of the reflection pass: one slash (with
running reflect budget refl) scans the candidate bullets; reflected bullets
are added to removeIds and their replacements are buffered in sp.  The loop
breaks when the budget is exhausted. -/
def reflectScan (nowMs : ℚ) (slash : Bullet) (sdx sdy slashRadius : ℚ) :
    List Bullet → ℚ → List String → List Bullet → ℚ × List String × List Bullet
  | [], refl, rem, sp => (refl, rem, sp)
  | b :: rest, refl, rem, sp =>
    if rem.contains b.id then reflectScan nowMs slash sdx sdy slashRadius rest refl rem sp
    else if b.isSlash then reflectScan nowMs slash sdx sdy slashRadius rest refl rem sp
    else if b.id == slash.id then reflectScan nowMs slash sdx sdy slashRadius rest refl rem sp
    else if (b.x - slash.x) * (b.x - slash.x) + (b.y - slash.y) * (b.y - slash.y) >
        (slashRadius + bulletRadius b) * (slashRadius + bulletRadius b) then
      reflectScan nowMs slash sdx sdy slashRadius rest refl rem sp
    else if refl ≤ 0 then (refl, rem, sp)
    else
      reflectScan nowMs slash sdx sdy slashRadius rest (refl - 1) (rem ++ [b.id])
        (sp ++ [reflectSpawn nowMs slash sdx sdy slashRadius b])

/-- world.ts stepBullets, reflection pass: every live slash with reflect
budget left deflects every live non-slash bullet within
slashRadius + bulletRadius; spawned bullets are buffered (returned
separately) and merged only after the hit pass. -/
def reflectPass (P : StepParams) (bs : List Bullet) (rem0 : List String) :
    List Bullet × List String × List Bullet :=
  let slashIds := (bs.filter (fun b => b.isSlash)).map (fun b => b.id)
  slashIds.foldl
    (fun acc sid =>
      let (bullets, rem, sp) := acc
      match findBullet bullets sid with
      | none => acc
      | some slash =>
        if rem.contains slash.id then acc
        else if slash.reflectsLeft.getD 0 ≤ 0 then acc
        else
          let slashRadius := bulletRadius slash
          let slashLen := hypotQ slash.vx slash.vy
          if slashLen < 1/1000 then acc
          else
            let sdx := slash.vx / slashLen
            let sdy := slash.vy / slashLen
            let res := reflectScan P.nowMs slash sdx sdy slashRadius bullets
              (slash.reflectsLeft.getD 0) rem sp
            (updateBullet bullets sid (fun b => { b with reflectsLeft := some res.1 }),
             res.2.1, res.2.2))
    (bs, rem0, [])

/-- room.ts Room.isShieldActive: the player exists, is not an echo, has a
positive shield charge count, and the shield timer has not elapsed. -/
def isShieldActive (ps : List Player) (su : List (String × ℚ)) (pid : String) (now : ℚ) : Bool :=
  let untilMs := (lookupMs su pid).getD 0
  match findPlayer ps pid with
  | none => false
  | some p => !p.isEcho && decide (0 < p.shieldHp.getD 0) && decide (now < untilMs)

/-- room.ts Room.breakShield: zero the shield, drop the timer, emit a
shield_break event (echoes and missing players are no-ops). -/
def breakShield (ps : List Player) (su : List (String × ℚ)) (evs : List GEvent)
    (pid : String) : List Player × List (String × ℚ) × List GEvent :=
  match findPlayer ps pid with
  | none => (ps, su, evs)
  | some p =>
    if p.isEcho then (ps, su, evs)
    else (updatePlayer ps pid (fun q => { q with shieldHp := some 0 }),
          eraseMs su pid, evs ++ [GEvent.shieldBreakEv pid])

/-- room.ts Room.handleShieldHit (the shieldHit callback of stepBullets):
if the shield is active, consume one charge, emit shield_hit (and break the
shield at zero charges) and report the hit as absorbed.  The source reads
Date.now() for the activity test; within a tick this is the tick timestamp,
modelled by the now argument. -/
def handleShieldHit (ps : List Player) (su : List (String × ℚ)) (evs : List GEvent)
    (pid : String) (now : ℚ) : Bool × List Player × List (String × ℚ) × List GEvent :=
  if !(isShieldActive ps su pid now) then (false, ps, su, evs)
  else
    match findPlayer ps pid with
    | none => (false, ps, su, evs)
    | some p =>
      if p.isEcho then (false, ps, su, evs)
      else
        let nextHp := max 0 (p.shieldHp.getD 0 - 1)
        let ps1 := updatePlayer ps pid (fun q => { q with shieldHp := some nextHp })
        let evs1 := evs ++ [GEvent.shieldHitEv pid nextHp]
        if nextHp = 0 then
          let res := breakShield ps1 su evs1 pid
          (true, res)
        else (true, ps1, su, evs1)

/-- room.ts Room.handleDeath, synchronous in-tick part (the onDeath callback
of stepBullets): a dead echo is deleted from the players map; for anyone
else the shield is cleared.  The respawn it schedules is a deferred timer
outside the tick and outside this model. -/
def handleDeath (ps : List Player) (su : List (String × ℚ)) (pid : String) :
    List Player × List (String × ℚ) :=
  match findPlayer ps pid with
  | none => (ps, su)
  | some p =>
    if p.isEcho then (removePlayer ps pid, su)
    else (updatePlayer ps pid (fun q => { q with shieldHp := some 0 }), eraseMs su pid)

/-- The running state of the hit-testing loop for one bullet. -/
structure HitState where
  bullet : Bullet
  players : List Player
  shieldUntil : List (String × ℚ)
  events : List GEvent
  removeIds : List String
  deriving Repr

/-- world.ts stepBullets, hit-testing of one bullet against a single player
(one iteration of the inner player loop).  Skips dead players, the owner
root (for bullets without a bounce budget), invulnerable players and
ignored hits; a shielded player absorbs the hit (consuming a charge) before
any distance test, blocking non-slash bullets; otherwise a circle overlap
within the rehit cooldown is skipped, and an overlap deals damage and
possibly kills.  Returns the updated running state and whether the player
loop breaks (source: break statements; plain non-slash, non-bounce bullets
stop after their first hit). -/
def hitPlayer (P : StepParams) (st : HitState) (pid : String) : HitState × Bool :=
  match findPlayer st.players pid with
  | none => (st, false)
  | some player =>
    if !player.alive then (st, false)
    else if st.bullet.bouncesLeft.isNone && player.id == st.bullet.ownerRootId then
      (st, false)
    else if P.isInvulnerable player.id then (st, false)
    else if P.ignoreHit st.bullet player.id P.nowMs then
      ({ st with removeIds := st.removeIds ++ [st.bullet.id] }, true)
    else
      let sh := handleShieldHit st.players st.shieldUntil st.events player.id P.nowMs
      if sh.1 then
        if !st.bullet.isSlash then
          ({ st with players := sh.2.1, shieldUntil := sh.2.2.1, events := sh.2.2.2,
                     removeIds := st.removeIds ++ [st.bullet.id] }, true)
        else
          ({ st with players := sh.2.1, shieldUntil := sh.2.2.1, events := sh.2.2.2 },
           false)
      else
        let dx := st.bullet.x - player.x
        let dy := st.bullet.y - player.y
        let hitR := player.r + bulletRadius st.bullet
        if dx * dx + dy * dy ≤ hitR * hitR then
          if st.bullet.lastHitTargetId == some player.id
              && st.bullet.lastHitAtMs.isSome
              && decide (P.nowMs - st.bullet.lastHitAtMs.getD 0 < 120) then
            (st, false)
          else
            let plain := !st.bullet.isSlash && st.bullet.bouncesLeft.isNone
            let rem := if plain then st.removeIds ++ [st.bullet.id] else st.removeIds
            let dmg := st.bullet.damage.getD 1
            let newHp := max 0 (player.hp - dmg)
            let ps1 := updatePlayer st.players player.id (fun q => { q with hp := newHp })
            let b1 := { st.bullet with
              lastHitTargetId := some player.id, lastHitAtMs := some P.nowMs }
            let evs1 := st.events ++ [GEvent.hit player.id b1.ownerRootId]
            let next :=
              if newHp = 0 && player.alive then
                let ps2 := updatePlayer ps1 player.id
                  (fun q => { q with alive := false, deaths := q.deaths + 1 })
                let ps3 :=
                  if (findPlayer ps2 b1.ownerRootId).isSome then
                    updatePlayer ps2 b1.ownerRootId (fun q => { q with kills := q.kills + 1 })
                  else ps2
                let evs2 := evs1 ++ [GEvent.death player.id b1.ownerRootId]
                let dres := handleDeath ps3 st.shieldUntil player.id
                (dres.1, dres.2, evs2)
              else (ps1, st.shieldUntil, evs1)
            ({ bullet := b1, players := next.1, shieldUntil := next.2.1,
               events := next.2.2, removeIds := rem }, plain)
        else (st, false)

/-- world.ts stepBullets, hit-testing loop of one bullet against the players
in map order, iterating hitPlayer until it breaks or the roster snapshot is
exhausted. -/
def hitScan (P : StepParams) : List String → HitState → HitState
  | [], st => st
  | pid :: rest, st =>
    if (hitPlayer P st pid).2 then (hitPlayer P st pid).1
    else hitScan P rest (hitPlayer P st pid).1

/-- world.ts stepBullets, hit-testing pass over all bullets. -/
def hitPhase (P : StepParams) (bs : List Bullet) (ps : List Player)
    (su : List (String × ℚ)) (evs : List GEvent) (rem : List String) :
    List Bullet × List Player × List (String × ℚ) × List GEvent × List String :=
  (bs.map (fun b => b.id)).foldl
    (fun acc bid =>
      let (bs, ps, su, evs, rem) := acc
      match findBullet bs bid with
      | none => acc
      | some b =>
        if rem.contains b.id then acc
        else
          let st := hitScan P (ps.map (fun p => p.id))
            { bullet := b, players := ps, shieldUntil := su, events := evs, removeIds := rem }
          (updateBullet bs bid (fun _ => st.bullet), st.players, st.shieldUntil,
           st.events, st.removeIds))
    (bs, ps, su, evs, rem)

/-- world.ts stepBullets: with allowDamage = false the function returns
before the movement loop, deleting nothing (removeIds is still empty), so
the whole state is untouched.  Otherwise: move/bounce/cull, reflection pass,
hit-testing pass, then the buffered spawned bullets are merged into the map
and the removeIds sweep deletes the marked bullets. -/
def stepBullets (P : StepParams) (w : World) : World :=
  if !P.allowDamage then w
  else
    let mv := movePhase P w.bullets
    let rf := reflectPass P mv.1 mv.2
    let ht := hitPhase P rf.1 w.players w.shieldUntil w.events rf.2.1
    let merged := ht.1 ++ rf.2.2
    { bullets := merged.filter (fun b => !ht.2.2.2.2.contains b.id),
      players := ht.2.1, shieldUntil := ht.2.2.1, events := ht.2.2.2.1 }

/-! ## room.ts : the per-room simulation

The Room functions the claims touch are modelled over a Room structure that
carries exactly the per-room collections they read and write.  Math.random
draws are modelled by an oracle rand : Nat → Nat consumed at indexed call
sites; only the value modulo the relevant bound is used, matching
Math.floor(Math.random() * n). -/

/-- room.ts: the four fixed SPAWN_POINTS (ARENA is 1200 x 800). -/
def SPAWN_POINTS : List (ℚ × ℚ) := [(60, 60), (1140, 60), (60, 740), (1140, 740)]

/-- room.ts BufferedInput keys. -/
structure Keys where
  up : Bool
  down : Bool
  left : Bool
  right : Bool
  deriving Repr, DecidableEq

/-- shared/protocol.ts Vec2. -/
structure Vec2 where
  x : ℚ
  y : ℚ
  deriving Repr, DecidableEq

/-- room.ts BufferedInput: one timestamped entry of the input history. -/
structure BufferedInput where
  tMs : ℚ
  keys : Keys
  aim : Vec2
  shoot : Bool
  deriving Repr, DecidableEq

/-- room.ts EchoMeta. -/
structure EchoMeta where
  expiresAtMs : ℚ
  ownerId : String
  deriving Repr, DecidableEq

/-- shared/protocol.ts ZoneState (kind is always "time_bubble"). -/
structure Zone where
  id : String
  x : ℚ
  y : ℚ
  r : ℚ
  expiresAtMs : ℚ
  deriving Repr, DecidableEq

/-- room.ts Strike. -/
structure Strike where
  id : String
  x : ℚ
  y : ℚ
  explodeAtMs : ℚ
  r : ℚ
  damage : ℚ
  byId : String
  deriving Repr, DecidableEq

/-- room.ts PendingStrike. -/
structure PendingStrike where
  active : Bool
  expiresAtMs : ℚ
  deriving Repr, DecidableEq

/-- shared/protocol.ts PortalState (endpoint circles as (x, y, r)). -/
structure Portal where
  id : String
  ownerId : String
  a : ℚ × ℚ × ℚ
  b : Option (ℚ × ℚ × ℚ) := none
  createdAtMs : ℚ := 0
  expiresAtMs : Option ℚ := none
  deriving Repr, DecidableEq

/-- room.ts PendingPortal. -/
structure PendingPortal where
  portal : Portal
  expiresAtMs : ℚ
  deriving Repr, DecidableEq

/-- shared/protocol.ts MatchPhase. -/
inductive MatchPhase
  | lobby | playing | ended
  deriving Repr, DecidableEq

/-- The Room fields used by the claims: the roster and the per-room
bookkeeping collections that tick, abilities and match lifecycle mutate. -/
structure Room where
  roomId : String
  players : List Player
  bullets : List Bullet
  echoes : List (String × EchoMeta)
  inputBuffer : List (String × List BufferedInput)
  zones : List Zone
  strikes : List Strike
  pendingStrikes : List (String × PendingStrike)
  pendingEvents : List GEvent
  portals : List Portal
  pendingPortals : List (String × PendingPortal)
  portalCooldownUntil : List (String × ℚ)
  botAi : List String
  shieldUntil : List (String × ℚ)
  lastShotAt : List (String × ℚ)
  matchPhase : MatchPhase
  startedAtMs : Option ℚ
  endsAtMs : Option ℚ
  durationSec : ℚ
  hostId : String
  maxHp : ℚ
  strikeSeq : Nat
  bulletSeq : Nat
  deriving Repr

/-- room.ts Room.findBufferedInput: scan the history from newest to oldest
and return the first entry with tMs at or before targetMs. -/
def findBufferedInput (history : List BufferedInput) (targetMs : ℚ) : Option BufferedInput :=
  history.reverse.find? (fun e => decide (e.tMs ≤ targetMs))

/-- room.ts Room.getTimeBubbleMoveMultAt: TIME_BUBBLE_MOVE_MULT (= 0.55)
inside any live time bubble, else 1. -/
def getTimeBubbleMoveMultAt (zones : List Zone) (x y : ℚ) : ℚ :=
  match zones.find? (fun z =>
      decide ((x - z.x) * (x - z.x) + (y - z.y) * (y - z.y) ≤ z.r * z.r)) with
  | some _ => 11/20
  | none => 1

/-- room.ts Room.applyMovement: normalized key direction, SPEED = 240,
position clamped to the arena inset by PLAYER_RADIUS = 18.  The
normalization Math.hypot(dx, dy) || 1 is modelled with hypotQ. -/
def applyMovement (p : Player) (keys : Keys) (dtSeconds speedMultiplier : ℚ) : Player :=
  let dx : ℚ := (if keys.right then 1 else 0) - (if keys.left then 1 else 0)
  let dy : ℚ := (if keys.down then 1 else 0) - (if keys.up then 1 else 0)
  if dx = 0 ∧ dy = 0 then p
  else
    let h := hypotQ dx dy
    let length := if h = 0 then 1 else h
    let nx := dx / length
    let ny := dy / length
    { p with
      x := clampQ (p.x + nx * 240 * dtSeconds * speedMultiplier) 18 (ARENA_W - 18)
      y := clampQ (p.y + ny * 240 * dtSeconds * speedMultiplier) 18 (ARENA_H - 18) }

/-- room.ts Room.tryShoot as called for an echo (or player): fire cooldown
FIRE_COOLDOWN_MS = 1000/6, aim normalization guard < 0.001, bullet speed
520, ttl 1200. -/
def tryShoot (room : Room) (shooter : Player) (aim : Vec2) (nowMs : ℚ)
    (ownerRootId : String) : Room :=
  let lastShot := (lookupMs room.lastShotAt shooter.id).getD 0
  if nowMs - lastShot < 1000/6 then room
  else
    let dx := aim.x - shooter.x
    let dy := aim.y - shooter.y
    let length := hypotQ dx dy
    if length < 1/1000 then room
    else
      let nx := dx / length
      let ny := dy / length
      let spawnOffset := shooter.r + 6
      let b : Bullet :=
        { id := room.roomId ++ "-b-" ++ toString room.bulletSeq
          ownerId := shooter.id
          ownerRootId := ownerRootId
          x := shooter.x + nx * spawnOffset
          y := shooter.y + ny * spawnOffset
          vx := nx * 520
          vy := ny * 520
          ttlMs := 1200
          portalJumpsLeft := some 2
          bulletPortalCooldownUntilMs := some 0 }
      { room with
        bullets := room.bullets ++ [b]
        bulletSeq := room.bulletSeq + 1
        lastShotAt := setMs room.lastShotAt shooter.id nowMs }

/-- room.ts Room.updateEchoes, body for one echoes-map entry: drop dangling
or expired echoes; otherwise replay the owner input buffered at
ECHO_DELAY_MS = 900 before now (if any, and if the echo is alive) through
applyMovement with the echo move multiplier, then possibly shoot. -/
def processEcho (nowMs dtSeconds : ℚ) (allowShoot : Bool) (room : Room)
    (entry : String × EchoMeta) : Room :=
  let echoId := entry.1
  let meta := entry.2
  match findPlayer room.players echoId with
  | none => { room with echoes := room.echoes.filter (fun e => e.1 != echoId) }
  | some echo =>
    if nowMs ≥ meta.expiresAtMs then
      { room with
        echoes := room.echoes.filter (fun e => e.1 != echoId)
        players := removePlayer room.players echoId
        lastShotAt := eraseMs room.lastShotAt echoId }
    else
      match findBufferedInput
          (((room.inputBuffer.find? (fun e => e.1 == meta.ownerId)).map Prod.snd).getD [])
          (nowMs - 900) with
      | none => room
      | some buffered =>
        if !echo.alive then room
        else
          let moveMult := getTimeBubbleMoveMultAt room.zones echo.x echo.y
          let echo1 := applyMovement echo buffered.keys dtSeconds moveMult
          let room1 := { room with players := updatePlayer room.players echoId (fun _ => echo1) }
          if allowShoot && buffered.shoot then tryShoot room1 echo1 buffered.aim nowMs meta.ownerId
          else room1

/-- room.ts Room.updateEchoes: process every echoes-map entry in order.
During the source iteration only the entry being visited is ever deleted, so
iterating over the snapshot of entries is equivalent to the live iteration. -/
def updateEchoes (nowMs dtSeconds : ℚ) (allowShoot : Bool) (room : Room) : Room :=
  room.echoes.foldl (processEcho nowMs dtSeconds allowShoot) room

/-- room.ts Room.pointInCircle: squared-distance containment test. -/
def pointInCircle (x y cx cy r : ℚ) : Bool :=
  decide ((x - cx) * (x - cx) + (y - cy) * (y - cy) ≤ r * r)

/-- room.ts Room.beginStrikeTargeting: arm a STRIKE_TARGET_WINDOW_MS = 5000
targeting window unless one is already active (echoes cannot target).  The
held item is not touched. -/
def beginStrikeTargeting (room : Room) (player : Player) (nowMs : ℚ) : Room :=
  if player.isEcho then room
  else
    match (room.pendingStrikes.find? (fun e => e.1 == player.id)).map Prod.snd with
    | some pending =>
      if pending.active && decide (nowMs ≤ pending.expiresAtMs) then room
      else
        { room with pendingStrikes :=
            (room.pendingStrikes.filter (fun e => e.1 != player.id)) ++
              [(player.id, { active := true, expiresAtMs := nowMs + 5000 })] }
    | none =>
      { room with pendingStrikes :=
          room.pendingStrikes ++ [(player.id, { active := true, expiresAtMs := nowMs + 5000 })] }

/-- room.ts Room.activateAbility, the branch taken for a held orbital_strike:
guard held item and aliveness, call beginStrikeTargeting, and return without
clearing the held item (the clearing line is only reached by other
abilities). -/
def activateOrbital (room : Room) (pid : String) (nowMs : ℚ) : Room :=
  match findPlayer room.players pid with
  | none => room
  | some player =>
    if player.heldItem ≠ some Ability.orbital_strike then room
    else if !player.alive then room
    else beginStrikeTargeting room player nowMs

/-- room.ts Room.confirmStrike: valid only while playing, for a live
non-echo caster with an active unexpired pending window still holding
orbital_strike; commits a Strike at the clamped target that detonates after
STRIKE_MARK_MS = 1000 with radius 120 and damage 2, clears the pending
window and the held item, and queues a strike_mark event. -/
def confirmStrike (room : Room) (pid : String) (x y nowMs : ℚ) : Room :=
  if room.matchPhase ≠ MatchPhase.playing then room
  else
    match findPlayer room.players pid with
    | none => room
    | some player =>
      if player.isEcho then room
      else if !player.alive then room
      else
        match (room.pendingStrikes.find? (fun e => e.1 == pid)).map Prod.snd with
        | none => room
        | some pending =>
          if !pending.active then room
          else if decide (nowMs > pending.expiresAtMs) then room
          else if player.heldItem ≠ some Ability.orbital_strike then room
          else
            let tx := clampQ x 0 ARENA_W
            let ty := clampQ y 0 ARENA_H
            let strike : Strike :=
              { id := room.roomId ++ "-s-" ++ toString room.strikeSeq
                x := tx, y := ty
                explodeAtMs := nowMs + 1000
                r := 120, damage := 2, byId := pid }
            { room with
              strikes := room.strikes ++ [strike]
              strikeSeq := room.strikeSeq + 1
              pendingStrikes := room.pendingStrikes.filter (fun e => e.1 != pid)
              players := updatePlayer room.players pid (fun q => { q with heldItem := none })
              pendingEvents := room.pendingEvents ++
                [GEvent.strikeMark strike.id tx ty 1000] }

/-- room.ts Room.killEntity: mark the (still alive) target dead, bump its
deaths, bump the killer kills when the killer is on the roster, emit a death
event and run handleDeath. -/
def killEntity (ps : List Player) (su : List (String × ℚ)) (evs : List GEvent)
    (targetId byRootId : String) :
    List Player × List (String × ℚ) × List GEvent :=
  match findPlayer ps targetId with
  | none => (ps, su, evs)
  | some target =>
    if !target.alive then (ps, su, evs)
    else
      let ps1 := updatePlayer ps targetId
        (fun q => { q with alive := false, deaths := q.deaths + 1 })
      let ps2 :=
        if (findPlayer ps1 byRootId).isSome then
          updatePlayer ps1 byRootId (fun q => { q with kills := q.kills + 1 })
        else ps1
      let evs1 := evs ++ [GEvent.death targetId byRootId]
      let dres := handleDeath ps2 su targetId
      (dres.1, dres.2, evs1)

/-- room.ts Room.resolveStrike, body for one roster entry: alive entities
whose center lies in the blast circle are damaged (2 hp) or killed; a
non-echo with an active shield takes a shield hit instead; echoes of the
caster are exempt. -/
def strikePlayerStep (strike : Strike) (nowMs : ℚ)
    (acc : List Player × List (String × ℚ) × List GEvent) (pid : String) :
    List Player × List (String × ℚ) × List GEvent :=
  let (ps, su, evs) := acc
  match findPlayer ps pid with
  | none => acc
  | some target =>
    if !target.alive then acc
    else if !pointInCircle target.x target.y strike.x strike.y strike.r then acc
    else if !target.isEcho && isShieldActive ps su target.id nowMs then
      let sh := handleShieldHit ps su evs target.id nowMs
      (sh.2.1, sh.2.2.1, sh.2.2.2)
    else if target.isEcho && target.ownerId == some strike.byId then acc
    else
      let nextHp := target.hp - strike.damage
      if nextHp ≤ 0 then killEntity ps su evs target.id strike.byId
      else
        (updatePlayer ps pid (fun q => { q with hp := nextHp }), su,
         evs ++ [GEvent.hit target.id strike.byId])

/-- room.ts Room.resolveStrike: apply the blast to every roster entry in map
order, then emit exactly one strike_boom event. -/
def resolveStrike (strike : Strike) (nowMs : ℚ) (ps : List Player)
    (su : List (String × ℚ)) (evs : List GEvent) :
    List Player × List (String × ℚ) × List GEvent :=
  let res := (ps.map (fun p => p.id)).foldl (strikePlayerStep strike nowMs) (ps, su, evs)
  (res.1, res.2.1, res.2.2 ++ [GEvent.strikeBoom strike.id strike.x strike.y strike.r])

/-- room.ts Room.updateStrikes: only while playing; strikes whose timer has
elapsed are resolved in order, the rest stay pending. -/
def updateStrikes (room : Room) (nowMs : ℚ) (evs : List GEvent) : Room × List GEvent :=
  if room.matchPhase ≠ MatchPhase.playing then (room, evs)
  else
    let res := room.strikes.foldl
      (fun acc strike =>
        let (ps, su, evs, pend) := acc
        if nowMs ≥ strike.explodeAtMs then
          let r := resolveStrike strike nowMs ps su evs
          (r.1, r.2.1, r.2.2, pend)
        else (ps, su, evs, pend ++ [strike]))
      (room.players, room.shieldUntil, evs, ([] : List Strike))
    ({ room with players := res.1, shieldUntil := res.2.1, strikes := res.2.2.2 },
     res.2.2.1)

/-- room.ts Room.randomSpawn: SPAWN_POINTS[Math.floor(Math.random() * 4)],
with the random draw k supplied by the oracle. -/
def spawnPoint (rand : Nat → Nat) (k : Nat) : ℚ × ℚ :=
  SPAWN_POINTS.getD (rand k % 4) (60, 60)

/-- room.ts Room.resetForMatch: clear every transient collection, despawn
all echoes, and respawn every non-echo roster entry at a random spawn point
with full configured hp, cleared held item and shield (and cleared scores
when clearScores is set).  The i-th roster entry draws its spawn from the
oracle at index i. -/
def resetForMatch (rand : Nat → Nat) (clearScores : Bool) (room : Room) : Room :=
  let echoIds := room.echoes.map Prod.fst
  let players1 := room.players.filter (fun p => !echoIds.contains p.id)
  let lastShot1 := room.lastShotAt.filter (fun e => !echoIds.contains e.1)
  let players2 := players1.enum.map (fun ip =>
    let p := ip.2
    if p.isEcho then p
    else
      let spawn := spawnPoint rand ip.1
      { p with
        x := spawn.1, y := spawn.2
        maxHp := room.maxHp, hp := room.maxHp
        alive := true, heldItem := none, shieldHp := some 0
        kills := if clearScores then 0 else p.kills
        deaths := if clearScores then 0 else p.deaths })
  let shieldUntil1 := room.shieldUntil.filter (fun e =>
    !(players1.any (fun p => !p.isEcho && p.id == e.1)))
  { room with
    bullets := [], zones := [], strikes := [], pendingStrikes := [],
    pendingEvents := [], portals := [], pendingPortals := [],
    portalCooldownUntil := [], botAi := [],
    echoes := [],
    players := players2,
    lastShotAt := lastShot1,
    shieldUntil := shieldUntil1 }

/-- room.ts Room.restartMatch: force the lobby phase, clear the match
timestamps, and run the full score-clearing reset. -/
def restartMatch (rand : Nat → Nat) (room : Room) : Room :=
  resetForMatch rand true
    { room with matchPhase := MatchPhase.lobby, startedAtMs := none, endsAtMs := none }

/-! ## Map lemmas shared by the claim proofs -/

unseal Rat.add Rat.mul Rat.inv Rat.sub

theorem find_cons_pos {α : Type} (p : α → Bool) (a : α) (l : List α) (h : p a = true) :
    List.find? p (a :: l) = some a := List.find?_cons_of_pos l h

theorem find_cons_neg {α : Type} (p : α → Bool) (a : α) (l : List α) (h : p a = false) :
    List.find? p (a :: l) = List.find? p l := List.find?_cons_of_neg l (by simp [h])

theorem findPlayer_update_self (ps : List Player) (pid : String) (f : Player → Player)
    (hf : ∀ p, (f p).id = p.id) :
    findPlayer (updatePlayer ps pid f) pid = (findPlayer ps pid).map f := by
  induction ps with
  | nil => rfl
  | cons p ps ih =>
    show List.find? (fun q => q.id == pid) ((if (p.id == pid) = true then f p else p) ::
        updatePlayer ps pid f) = _
    cases h : (p.id == pid) with
    | true =>
      have hfp : ((f p).id == pid) = true := by rw [hf]; exact h
      rw [if_pos rfl]
      rw [find_cons_pos (fun q => q.id == pid) (f p) _ hfp]
      show _ = (List.find? (fun q => q.id == pid) (p :: ps)).map f
      rw [find_cons_pos (fun q => q.id == pid) p _ h]
      rfl
    | false =>
      rw [if_neg (by simp [h])]
      rw [find_cons_neg (fun q => q.id == pid) p _ h]
      show _ = (List.find? (fun q => q.id == pid) (p :: ps)).map f
      rw [find_cons_neg (fun q => q.id == pid) p _ h]
      exact ih

theorem findPlayer_update_ne (ps : List Player) (pid qid : String) (f : Player → Player)
    (hf : ∀ p, (f p).id = p.id) (hne : qid ≠ pid) :
    findPlayer (updatePlayer ps pid f) qid = findPlayer ps qid := by
  induction ps with
  | nil => rfl
  | cons p ps ih =>
    show List.find? (fun q => q.id == qid) ((if (p.id == pid) = true then f p else p) ::
        updatePlayer ps pid f) = _
    cases h : (p.id == pid) with
    | true =>
      have hp : p.id = pid := beq_iff_eq.mp h
      have hq : ((f p).id == qid) = false := by
        rw [hf, hp]
        simp only [beq_eq_false_iff_ne]
        exact fun hc => hne hc.symm
      have hq2 : (p.id == qid) = false := by
        rw [hp]
        simp only [beq_eq_false_iff_ne]
        exact fun hc => hne hc.symm
      rw [if_pos rfl]
      rw [find_cons_neg (fun q => q.id == qid) (f p) _ hq]
      show _ = List.find? (fun q => q.id == qid) (p :: ps)
      rw [find_cons_neg (fun q => q.id == qid) p _ hq2]
      exact ih
    | false =>
      rw [if_neg (by simp [h])]
      cases h2 : (p.id == qid) with
      | true =>
        rw [find_cons_pos (fun q => q.id == qid) p _ h2]
        show _ = List.find? (fun q => q.id == qid) (p :: ps)
        rw [find_cons_pos (fun q => q.id == qid) p _ h2]
      | false =>
        rw [find_cons_neg (fun q => q.id == qid) p _ h2]
        show _ = List.find? (fun q => q.id == qid) (p :: ps)
        rw [find_cons_neg (fun q => q.id == qid) p _ h2]
        exact ih

theorem findPlayer_remove_ne (ps : List Player) (pid qid : String) (hne : qid ≠ pid) :
    findPlayer (removePlayer ps pid) qid = findPlayer ps qid := by
  induction ps with
  | nil => rfl
  | cons p ps ih =>
    show List.find? (fun q => q.id == qid) (List.filter (fun q => q.id != pid) (p :: ps)) = _
    rw [List.filter_cons]
    cases h : (p.id != pid) with
    | true =>
      rw [if_pos rfl]
      cases h2 : (p.id == qid) with
      | true =>
        rw [find_cons_pos (fun q => q.id == qid) p _ h2]
        show _ = List.find? (fun q => q.id == qid) (p :: ps)
        rw [find_cons_pos (fun q => q.id == qid) p _ h2]
      | false =>
        rw [find_cons_neg (fun q => q.id == qid) p _ h2]
        show _ = List.find? (fun q => q.id == qid) (p :: ps)
        rw [find_cons_neg (fun q => q.id == qid) p _ h2]
        exact ih
    | false =>
      have hp : p.id = pid := by simpa using h
      have hq : (p.id == qid) = false := by
        rw [hp]
        simp only [beq_eq_false_iff_ne]
        exact fun hc => hne hc.symm
      rw [if_neg (by simp [h])]
      show _ = List.find? (fun q => q.id == qid) (p :: ps)
      rw [find_cons_neg (fun q => q.id == qid) p _ hq]
      exact ih

theorem eraseMs_lookup_ne (m : List (String × ℚ)) (k q : String) (hne : q ≠ k) :
    lookupMs (eraseMs m k) q = lookupMs m q := by
  induction m with
  | nil => rfl
  | cons e m ih =>
    show (List.find? (fun x => x.1 == q) (List.filter (fun x => x.1 != k) (e :: m))).map Prod.snd = _
    rw [List.filter_cons]
    cases h : (e.1 != k) with
    | true =>
      rw [if_pos rfl]
      cases h2 : (e.1 == q) with
      | true =>
        rw [find_cons_pos (fun x => x.1 == q) e _ h2]
        show _ = (List.find? (fun x => x.1 == q) (e :: m)).map Prod.snd
        rw [find_cons_pos (fun x => x.1 == q) e _ h2]
      | false =>
        rw [find_cons_neg (fun x => x.1 == q) e _ h2]
        show _ = (List.find? (fun x => x.1 == q) (e :: m)).map Prod.snd
        rw [find_cons_neg (fun x => x.1 == q) e _ h2]
        exact ih
    | false =>
      have hk : e.1 = k := by simpa using h
      have hq : (e.1 == q) = false := by
        rw [hk]
        simp only [beq_eq_false_iff_ne]
        exact fun hc => hne hc.symm
      rw [if_neg (by simp [h])]
      show _ = (List.find? (fun x => x.1 == q) (e :: m)).map Prod.snd
      rw [find_cons_neg (fun x => x.1 == q) e _ hq]
      exact ih

theorem findPlayer_id (ps : List Player) (pid : String) (p : Player)
    (h : findPlayer ps pid = some p) : p.id = pid := by
  have := List.find?_some h
  exact beq_iff_eq.mp this

/-! ## Claim C1 -/

/-- Claim C1, amended: while the match phase is not playing (stepBullets is
invoked with allowDamage = false), stepBullets is a no-op: the early return
happens before the movement loop with removeIds still empty, so no
projectile advances, no ttl is decremented, and nothing is removed — the
whole collision state is unchanged. -/
theorem stepBullets_noop_without_damage (P : StepParams) (w : World)
    (h : P.allowDamage = false) : stepBullets P w = w := by
  simp [stepBullets, h]

/-- Fixture for C1: one bullet with velocity (10, 0) at (100, 100). -/
def c1Bullet : Bullet :=
  { id := "c1b", ownerId := "B", ownerRootId := "B", x := 100, y := 100,
    vx := 10, vy := 0, ttlMs := 1000 }

/-- Fixture for C1. -/
def c1World : World :=
  { bullets := [c1Bullet], players := [], shieldUntil := [], events := [] }

/-- Fixture for C1: a 50 ms tick with damage disallowed (lobby phase). -/
def c1Params : StepParams := { dtSeconds := 1/20, nowMs := 1000, allowDamage := false }

/-- Claim C1, counterexample to the claim as stated: with allowDamage =
false the bullet stays at x = 100 and keeps ttl 1000 — the claimed
post-state position x + vx * dt * mult = 100.5 differs, so projectiles do
not advance while the match is not playing. -/
theorem stepBullets_frozen_counterexample :
    (stepBullets c1Params c1World).bullets.map (fun b => (b.x, b.ttlMs)) = [(100, 1000)] ∧
    c1Bullet.x + c1Bullet.vx * c1Params.dtSeconds * 1 ≠ 100 := by
  constructor
  · decide
  · show (100 : ℚ) + 10 * (1/20) * 1 ≠ 100
    norm_num

/-- Witness for C1: the no-op theorem applied to the concrete lobby tick. -/
theorem stepBullets_noop_without_damage_witness :
    stepBullets c1Params c1World = c1World :=
  stepBullets_noop_without_damage c1Params c1World rfl

/-! ## Claim C2 -/

/-- Fixture for C2: a plain bullet far away from the shielded player. -/
def c2Bullet : Bullet :=
  { id := "c2b", ownerId := "B", ownerRootId := "B", x := 100, y := 100,
    vx := 10, vy := 0, ttlMs := 1000 }

/-- Fixture for C2: a shielded player with two charges. -/
def c2Shielded : Player := { id := "P", x := 600, y := 400, hp := 3, shieldHp := some 2 }

/-- Fixture for C2. -/
def c2World : World :=
  { bullets := [c2Bullet], players := [c2Shielded], shieldUntil := [("P", 99999)],
    events := [] }

/-- Fixture for C2: a playing-phase 50 ms tick. -/
def c2Params : StepParams := { dtSeconds := 1/20, nowMs := 1000 }

/-- Claim C2, counterexample to the claim as stated: after one tick the
bullet (at its post-integration position) does not overlap the shielded
player, yet the shield charge count drops from 2 to 1 — the shield predicate
runs before the overlap test, so a charge is consumed by a projectile that
never hits. -/
theorem shield_consumed_without_overlap_counterexample :
    ((moveBullet c2Params c2Bullet).1.x - c2Shielded.x) *
        ((moveBullet c2Params c2Bullet).1.x - c2Shielded.x) +
      ((moveBullet c2Params c2Bullet).1.y - c2Shielded.y) *
        ((moveBullet c2Params c2Bullet).1.y - c2Shielded.y) >
      (c2Shielded.r + bulletRadius (moveBullet c2Params c2Bullet).1) *
        (c2Shielded.r + bulletRadius (moveBullet c2Params c2Bullet).1) ∧
    (stepBullets c2Params c2World).players.map (fun p => p.shieldHp) = [some 1] := by
  constructor
  · decide
  · decide

/-- Claim C2, amended: during hit-testing the shield predicate is evaluated
before the overlap test, so a shield charge is consumed by every projectile
whose scan reaches the shielded entity, whether or not the projectile
overlaps it; a non-slash projectile is then blocked (removed) and deals no
damage, and a slash projectile also consumes a charge, is not removed, and
deals no damage to the shielded entity. -/
theorem hitScan_shield_absorbs (P : StepParams) (pid : String) (rest : List String)
    (st : HitState) (player : Player)
    (hfind : findPlayer st.players pid = some player)
    (halive : player.alive = true)
    (hown : (st.bullet.bouncesLeft.isNone && (player.id == st.bullet.ownerRootId)) = false)
    (hinv : P.isInvulnerable player.id = false)
    (hign : P.ignoreHit st.bullet player.id P.nowMs = false)
    (hsh : isShieldActive st.players st.shieldUntil pid P.nowMs = true) :
    ∃ ps1 su1 evs1,
      handleShieldHit st.players st.shieldUntil st.events player.id P.nowMs =
        (true, ps1, su1, evs1) ∧
      (findPlayer ps1 pid).map (fun q => q.shieldHp) =
        some (some (max 0 (player.shieldHp.getD 0 - 1))) ∧
      (findPlayer ps1 pid).map (fun q => q.hp) = some player.hp ∧
      (st.bullet.isSlash = false →
        hitScan P (pid :: rest) st =
          { st with players := ps1, shieldUntil := su1, events := evs1,
                    removeIds := st.removeIds ++ [st.bullet.id] }) ∧
      (st.bullet.isSlash = true →
        hitScan P (pid :: rest) st =
          hitScan P rest { st with players := ps1, shieldUntil := su1, events := evs1 }) := by
  have hpid : player.id = pid := findPlayer_id _ _ _ hfind
  subst hpid
  have hEcho : player.isEcho = false := by
    unfold isShieldActive at hsh
    rw [hfind] at hsh
    simp only [Bool.and_eq_true, Bool.not_eq_true'] at hsh
    exact hsh.1.1
  have hPos : 0 < player.shieldHp.getD 0 := by
    unfold isShieldActive at hsh
    rw [hfind] at hsh
    simp only [Bool.and_eq_true, decide_eq_true_eq] at hsh
    exact hsh.1.2
  -- compute handleShieldHit
  have hsweq : ∃ ps1 su1 evs1,
      handleShieldHit st.players st.shieldUntil st.events player.id P.nowMs =
        (true, ps1, su1, evs1) ∧
      (findPlayer ps1 player.id).map (fun q => q.shieldHp) =
        some (some (max 0 (player.shieldHp.getD 0 - 1))) ∧
      (findPlayer ps1 player.id).map (fun q => q.hp) = some player.hp := by
    unfold handleShieldHit
    rw [hsh]
    simp only [Bool.not_true, Bool.false_eq_true, if_false]
    rw [hfind]
    simp only [hEcho, Bool.false_eq_true, if_false]
    have hfind1 : findPlayer (updatePlayer st.players player.id
        (fun q => { q with shieldHp := some (max 0 (player.shieldHp.getD 0 - 1)) })) player.id =
        some { player with shieldHp := some (max 0 (player.shieldHp.getD 0 - 1)) } := by
      rw [findPlayer_update_self st.players player.id
        (fun q => { q with shieldHp := some (max 0 (player.shieldHp.getD 0 - 1)) })
        (fun p => rfl), hfind]
      rfl
    by_cases h0 : max 0 (player.shieldHp.getD 0 - 1) = (0 : ℚ)
    · rw [if_pos h0]
      unfold breakShield
      rw [hfind1]
      simp only [hEcho, Bool.false_eq_true, if_false]
      refine ⟨_, _, _, rfl, ?_, ?_⟩
      · rw [findPlayer_update_self (updatePlayer st.players player.id
            (fun q => { q with shieldHp := some (max 0 (player.shieldHp.getD 0 - 1)) }))
            player.id (fun q => { q with shieldHp := some 0 }) (fun p => rfl), hfind1]
        rw [h0]
        rfl
      · rw [findPlayer_update_self (updatePlayer st.players player.id
            (fun q => { q with shieldHp := some (max 0 (player.shieldHp.getD 0 - 1)) }))
            player.id (fun q => { q with shieldHp := some 0 }) (fun p => rfl), hfind1]
        rfl
    · rw [if_neg h0]
      refine ⟨_, _, _, rfl, ?_, ?_⟩
      · rw [hfind1]
        rfl
      · rw [hfind1]
        rfl
  obtain ⟨ps1, su1, evs1, heq, hshp, hhp⟩ := hsweq
  refine ⟨ps1, su1, evs1, heq, hshp, hhp, ?_, ?_⟩
  · intro hslash
    show hitScan P (player.id :: rest) st = _
    rw [hitScan]
    unfold hitPlayer
    rw [hfind]
    simp only [halive, Bool.not_true, Bool.not_false, Bool.false_eq_true, if_false, hown,
      hinv, hign, heq, hslash, if_true]
  · intro hslash
    show hitScan P (player.id :: rest) st = _
    rw [hitScan]
    unfold hitPlayer
    rw [hfind]
    simp only [halive, Bool.not_true, Bool.false_eq_true, if_false, hown, hinv, hign, heq,
      hslash, if_true]

/-- Fixture for the C2 witness: a slash overlapping the shielded player. -/
def c2SlashState : HitState :=
  { bullet := { id := "c2s", ownerId := "B", ownerRootId := "B", x := 600, y := 410,
                vx := 3, vy := 4, ttlMs := 3000, isSlash := true, damage := some 5,
                r := some 48, reflectsLeft := some 20 }
    players := [c2Shielded]
    shieldUntil := [("P", 99999)]
    events := []
    removeIds := [] }

/-- Witness for C2: the shield-absorption theorem applied to a concrete
slash scanning the shielded player. -/
theorem hitScan_shield_absorbs_witness :
    ∃ ps1 su1 evs1,
      handleShieldHit c2SlashState.players c2SlashState.shieldUntil c2SlashState.events
          "P" c2Params.nowMs = (true, ps1, su1, evs1) ∧
      (findPlayer ps1 "P").map (fun q => q.shieldHp) =
        some (some (max 0 (c2Shielded.shieldHp.getD 0 - 1))) ∧
      (findPlayer ps1 "P").map (fun q => q.hp) = some c2Shielded.hp ∧
      (c2SlashState.bullet.isSlash = false →
        hitScan c2Params ["P"] c2SlashState =
          { c2SlashState with players := ps1, shieldUntil := su1, events := evs1,
                              removeIds := c2SlashState.removeIds ++ [c2SlashState.bullet.id] }) ∧
      (c2SlashState.bullet.isSlash = true →
        hitScan c2Params ["P"] c2SlashState =
          hitScan c2Params []
            { c2SlashState with players := ps1, shieldUntil := su1, events := evs1 }) :=
  hitScan_shield_absorbs c2Params "P" [] c2SlashState c2Shielded (by decide) (by decide)
    (by decide) rfl rfl (by decide)

/-! ## Claim C3 -/

/-- Fixture for C3: a slash owned by A. -/
def c3Slash : Bullet :=
  { id := "s1", ownerId := "A", ownerRootId := "A", x := 300, y := 300, vx := 3, vy := 4,
    ttlMs := 3000, isSlash := true, damage := some 5, r := some 48, reflectsLeft := some 20 }

/-- Fixture for C3: a bullet owned by B sitting on the slash path. -/
def c3Orig : Bullet :=
  { id := "b3", ownerId := "B", ownerRootId := "B", x := 300 + 3/20, y := 300 + 4/20,
    vx := 0, vy := 0, ttlMs := 500 }

/-- Fixture for C3. -/
def c3World : World :=
  { bullets := [c3Slash, c3Orig], players := [], shieldUntil := [], events := [] }

/-- Fixture for C3. -/
def c3Params : StepParams := { dtSeconds := 1/20, nowMs := 1000 }

/-- Claim C3, counterexample to the claim as stated: the slash (owner A)
reflects the bullet b3 (owner B); the spawned replacement carries the SLASH
owner A, not the owner B of the original projectile, so the replacement does
not inherit the original owner/owner-root. -/
theorem reflect_owner_counterexample :
    (stepBullets c3Params c3World).bullets.map (fun b => (b.id, b.ownerId, b.ownerRootId)) =
      [("s1", "A", "A"), ("b3-r-1000", "A", "A")] ∧
    c3Orig.ownerId ≠ "A" := by
  constructor
  · decide
  · decide

/-- Claim C3, amended: in the reflection pass, a live non-slash projectile
within slash radius + bullet radius of a slash with reflect budget remaining
is marked deleted and replaced by a buffered projectile launched along the
normalized slash direction at 1.2 times max(1, the original speed),
inheriting the SLASH owner and owner-root and the original ttl floored at
120 ms, while the slash reflect budget decrements; the replacements are
merged into the live set only after the hit pass (stepBullets appends the
spawned list after hit-testing). -/
theorem reflectScan_deflects (nowMs : ℚ) (slash : Bullet) (sdx sdy slashRadius : ℚ)
    (b : Bullet) (rest : List Bullet) (refl : ℚ) (rem : List String) (sp : List Bullet)
    (hnotrem : rem.contains b.id = false)
    (hnotslash : b.isSlash = false)
    (hne : (b.id == slash.id) = false)
    (hoverlap : (b.x - slash.x) * (b.x - slash.x) + (b.y - slash.y) * (b.y - slash.y) ≤
      (slashRadius + bulletRadius b) * (slashRadius + bulletRadius b))
    (hbudget : 0 < refl) :
    reflectScan nowMs slash sdx sdy slashRadius (b :: rest) refl rem sp =
      reflectScan nowMs slash sdx sdy slashRadius rest (refl - 1) (rem ++ [b.id])
        (sp ++ [reflectSpawn nowMs slash sdx sdy slashRadius b]) ∧
    (reflectSpawn nowMs slash sdx sdy slashRadius b).ownerId = slash.ownerId ∧
    (reflectSpawn nowMs slash sdx sdy slashRadius b).ownerRootId = slash.ownerRootId ∧
    (reflectSpawn nowMs slash sdx sdy slashRadius b).ttlMs = max 120 b.ttlMs ∧
    (reflectSpawn nowMs slash sdx sdy slashRadius b).vx =
      sdx * max 1 (hypotQ b.vx b.vy) * (6/5) ∧
    (reflectSpawn nowMs slash sdx sdy slashRadius b).vy =
      sdy * max 1 (hypotQ b.vx b.vy) * (6/5) := by
  refine ⟨?_, rfl, rfl, rfl, rfl, rfl⟩
  rw [reflectScan]
  rw [if_neg (by simpa using hnotrem), if_neg (by simp [hnotslash]), if_neg (by simp [hne]),
    if_neg (not_lt.mpr hoverlap), if_neg (not_le.mpr hbudget)]

/-- Witness for C3: the reflection step theorem applied to the concrete
slash and bullet of the counterexample world (at their post-move
positions). -/
theorem reflectScan_deflects_witness :
    reflectScan 1000 c3Slash (3/5) (4/5) 48 ([c3Orig]) 20 [] [] =
      reflectScan 1000 c3Slash (3/5) (4/5) 48 [] (20 - 1) ([] ++ [c3Orig.id])
        ([] ++ [reflectSpawn 1000 c3Slash (3/5) (4/5) 48 c3Orig]) ∧
    (reflectSpawn 1000 c3Slash (3/5) (4/5) 48 c3Orig).ownerId = c3Slash.ownerId ∧
    (reflectSpawn 1000 c3Slash (3/5) (4/5) 48 c3Orig).ownerRootId = c3Slash.ownerRootId ∧
    (reflectSpawn 1000 c3Slash (3/5) (4/5) 48 c3Orig).ttlMs = max 120 c3Orig.ttlMs ∧
    (reflectSpawn 1000 c3Slash (3/5) (4/5) 48 c3Orig).vx =
      (3/5) * max 1 (hypotQ c3Orig.vx c3Orig.vy) * (6/5) ∧
    (reflectSpawn 1000 c3Slash (3/5) (4/5) 48 c3Orig).vy =
      (4/5) * max 1 (hypotQ c3Orig.vx c3Orig.vy) * (6/5) :=
  reflectScan_deflects 1000 c3Slash (3/5) (4/5) 48 c3Orig [] 20 [] []
    (by decide) (by decide) (by decide) (by decide) (by decide)

/-! ## Claim C8 -/

/-- Field-preservation under updatePlayer: any id-preserving record update f
that leaves the observation g unchanged is invisible through findPlayer. -/
theorem findPlayer_update_map (ps : List Player) (k pid : String) (f : Player → Player)
    {α : Type} (g : Player → α)
    (hf : ∀ p, (f p).id = p.id) (hg : ∀ p, g (f p) = g p) :
    (findPlayer (updatePlayer ps k f) pid).map g = (findPlayer ps pid).map g := by
  induction ps with
  | nil => rfl
  | cons p ps ih =>
    show (List.find? (fun q => q.id == pid) ((if (p.id == k) = true then f p else p) ::
        updatePlayer ps k f)).map g = _
    cases h : (p.id == k) with
    | true =>
      rw [if_pos rfl]
      cases h2 : (p.id == pid) with
      | true =>
        have hfp : ((f p).id == pid) = true := by rw [hf]; exact h2
        rw [find_cons_pos (fun q => q.id == pid) (f p) _ hfp]
        show _ = (List.find? (fun q => q.id == pid) (p :: ps)).map g
        rw [find_cons_pos (fun q => q.id == pid) p _ h2]
        simp [hg]
      | false =>
        have hfp : ((f p).id == pid) = false := by rw [hf]; exact h2
        rw [find_cons_neg (fun q => q.id == pid) (f p) _ hfp]
        show _ = (List.find? (fun q => q.id == pid) (p :: ps)).map g
        rw [find_cons_neg (fun q => q.id == pid) p _ h2]
        exact ih
    | false =>
      rw [if_neg (by simp [h])]
      cases h2 : (p.id == pid) with
      | true =>
        rw [find_cons_pos (fun q => q.id == pid) p _ h2]
        show _ = (List.find? (fun q => q.id == pid) (p :: ps)).map g
        rw [find_cons_pos (fun q => q.id == pid) p _ h2]
      | false =>
        rw [find_cons_neg (fun q => q.id == pid) p _ h2]
        show _ = (List.find? (fun q => q.id == pid) (p :: ps)).map g
        rw [find_cons_neg (fun q => q.id == pid) p _ h2]
        exact ih

/-- Fixture for C8: the owner standing at (600, 400). -/
def c8Owner : Player := { id := "A", x := 600, y := 400, hp := 3 }

/-- Fixture for C8: a bouncer fired by A overlapping A itself. -/
def c8Bouncer : Bullet :=
  { id := "c8b", ownerId := "A", ownerRootId := "A", x := 595, y := 400, vx := 0, vy := 0,
    ttlMs := 5000, bouncesLeft := some 6, damage := some 1, radius := some 36 }

/-- Fixture for C8. -/
def c8World : World :=
  { bullets := [c8Bouncer], players := [c8Owner], shieldUntil := [], events := [] }

/-- Fixture for C8. -/
def c8Params : StepParams := { dtSeconds := 1/20, nowMs := 1000 }

/-- Claim C8: a projectile without a bounce budget is skipped against the
entity equal to its owner-root before any other test, so it can never hit
its owner-root; and a projectile with a bounce budget can damage its own
owner-root, shown on the concrete bouncer world where the owner hp drops
3 to 2. -/
theorem owner_hit_rules :
    (∀ (P : StepParams) (pid : String) (rest : List String) (st : HitState) (p : Player),
      findPlayer st.players pid = some p → p.alive = true →
      st.bullet.bouncesLeft.isNone = true → p.id = st.bullet.ownerRootId →
      hitScan P (pid :: rest) st = hitScan P rest st) ∧
    ((stepBullets c8Params c8World).players.map (fun q => (q.id, q.hp)) = [("A", 2)] ∧
      c8Bouncer.ownerRootId = "A" ∧ c8Bouncer.bouncesLeft.isSome = true) := by
  constructor
  · intro P pid rest st p hfind halive hbounce hpid
    rw [hitScan]
    unfold hitPlayer
    rw [hfind]
    have hb : (st.bullet.bouncesLeft.isNone && (p.id == st.bullet.ownerRootId)) = true := by
      rw [hbounce, hpid]
      simp
    simp only [halive, Bool.not_true, Bool.false_eq_true, if_false, hb, if_true]
  · refine ⟨by decide, by decide, by decide⟩

/-- Fixture for the C8 witness: a plain bullet overlapping its own
owner-root. -/
def c8PlainState : HitState :=
  { bullet := { id := "c8p", ownerId := "A", ownerRootId := "A", x := 600, y := 405,
                vx := 0, vy := 0, ttlMs := 1000 }
    players := [c8Owner]
    shieldUntil := []
    events := []
    removeIds := [] }

/-- Witness for C8: the owner-skip rule applied to a concrete plain bullet
overlapping its own owner-root — the scan skips the owner entirely. -/
theorem owner_hit_rules_witness :
    hitScan c8Params ["A"] c8PlainState = hitScan c8Params [] c8PlainState :=
  owner_hit_rules.1 c8Params "A" [] c8PlainState c8Owner (by decide) (by decide)
    (by decide) (by decide)

/-! ## Claim C9 -/

/-- Fixture for C9: target player at (600, 400) with radius 18. -/
def c9Target : Player := { id := "T", x := 600, y := 400, hp := 3 }

/-- Fixture for C9: after integration this bullet sits at x = 621, exactly
tangent to the target (distance 21 = 18 + 3). -/
def c9Bullet : Bullet :=
  { id := "c9b", ownerId := "B", ownerRootId := "B", x := 1241/2, y := 400, vx := 10,
    vy := 0, ttlMs := 1000 }

/-- Fixture for C9. -/
def c9World : World :=
  { bullets := [c9Bullet], players := [c9Target], shieldUntil := [], events := [] }

/-- Fixture for C9. -/
def c9Params : StepParams := { dtSeconds := 1/20, nowMs := 1000 }

/-- Claim C9: the hit test is decided by squared distance with a non-strict
comparison.  (1) If the squared distance strictly exceeds (entity radius +
projectile radius) squared, the scan step has no effect on the pair.
(2) If the squared distance is at most (sum of radii) squared and the pair
is not in the rehit cooldown, damage max(0, hp - damage) is applied and a
hit event is pushed.  (3) On the concrete engine run, a bullet exactly
tangent (distance = 21 = 18 + 3) counts as a hit and costs one hp. -/
theorem overlap_tangency_rules :
    (∀ (P : StepParams) (pid : String) (rest : List String) (st : HitState) (p : Player),
      findPlayer st.players pid = some p → p.alive = true →
      (st.bullet.bouncesLeft.isNone && (p.id == st.bullet.ownerRootId)) = false →
      P.isInvulnerable p.id = false →
      P.ignoreHit st.bullet p.id P.nowMs = false →
      isShieldActive st.players st.shieldUntil pid P.nowMs = false →
      (p.r + bulletRadius st.bullet) * (p.r + bulletRadius st.bullet) <
        (st.bullet.x - p.x) * (st.bullet.x - p.x) +
          (st.bullet.y - p.y) * (st.bullet.y - p.y) →
      hitScan P (pid :: rest) st = hitScan P rest st) ∧
    (∀ (P : StepParams) (pid : String) (rest : List String) (st : HitState) (p : Player),
      findPlayer st.players pid = some p → p.alive = true → p.isEcho = false →
      (st.bullet.bouncesLeft.isNone && (p.id == st.bullet.ownerRootId)) = false →
      P.isInvulnerable p.id = false →
      P.ignoreHit st.bullet p.id P.nowMs = false →
      isShieldActive st.players st.shieldUntil pid P.nowMs = false →
      (st.bullet.x - p.x) * (st.bullet.x - p.x) +
          (st.bullet.y - p.y) * (st.bullet.y - p.y) ≤
        (p.r + bulletRadius st.bullet) * (p.r + bulletRadius st.bullet) →
      (st.bullet.lastHitTargetId == some p.id && st.bullet.lastHitAtMs.isSome &&
        decide (P.nowMs - st.bullet.lastHitAtMs.getD 0 < 120)) = false →
      ∃ st1 evs2,
        hitScan P (pid :: rest) st =
          (if (!st.bullet.isSlash && st.bullet.bouncesLeft.isNone) = true then st1
           else hitScan P rest st1) ∧
        st1.events = (st.events ++ [GEvent.hit pid st.bullet.ownerRootId]) ++ evs2 ∧
        (findPlayer st1.players pid).map (fun q => q.hp) =
          some (max 0 (p.hp - st.bullet.damage.getD 1))) ∧
    (((moveBullet c9Params c9Bullet).1.x - c9Target.x) *
          ((moveBullet c9Params c9Bullet).1.x - c9Target.x) +
        ((moveBullet c9Params c9Bullet).1.y - c9Target.y) *
          ((moveBullet c9Params c9Bullet).1.y - c9Target.y) =
      (c9Target.r + bulletRadius (moveBullet c9Params c9Bullet).1) *
        (c9Target.r + bulletRadius (moveBullet c9Params c9Bullet).1) ∧
     (stepBullets c9Params c9World).players.map (fun q => q.hp) = [2]) := by
  refine ⟨?_, ?_, by decide, by decide⟩
  · intro P pid rest st p hfind halive hown hinv hign hshield hfar
    have hpid : p.id = pid := findPlayer_id _ _ _ hfind
    have hsh0 : handleShieldHit st.players st.shieldUntil st.events p.id P.nowMs =
        (false, st.players, st.shieldUntil, st.events) := by
      unfold handleShieldHit
      rw [hpid, hshield]
      simp
    rw [hitScan]
    unfold hitPlayer
    rw [hfind]
    simp only [halive, Bool.not_true, Bool.false_eq_true, if_false, hown, hinv, hign, hsh0,
      if_neg (not_le.mpr hfar)]
  · intro P pid rest st p hfind halive hEcho hown hinv hign hshield hoverlap hcool
    have hpid : p.id = pid := findPlayer_id _ _ _ hfind
    have hsh0 : handleShieldHit st.players st.shieldUntil st.events p.id P.nowMs =
        (false, st.players, st.shieldUntil, st.events) := by
      unfold handleShieldHit
      rw [hpid, hshield]
      simp
    rw [hitScan]
    unfold hitPlayer
    rw [hfind]
    simp only [halive, Bool.not_true, Bool.false_eq_true, if_false, hown, hinv, hign, hsh0,
      if_pos hoverlap, hcool]
    simp only [hpid]
    set dmg := st.bullet.damage.getD 1 with hdmg
    set newHp := max 0 (p.hp - dmg) with hnew
    set ps1 := updatePlayer st.players pid (fun q => { q with hp := newHp }) with hps1d
    set ps2 := updatePlayer ps1 pid
      (fun q => { q with alive := false, deaths := q.deaths + 1 }) with hps2d
    set ps3 := (if (findPlayer ps2 st.bullet.ownerRootId).isSome = true then
        updatePlayer ps2 st.bullet.ownerRootId (fun q => { q with kills := q.kills + 1 })
      else ps2) with hps3d
    have hps1 : (findPlayer ps1 pid).map (fun q => q.hp) = some newHp := by
      rw [hps1d, findPlayer_update_self st.players pid (fun q => { q with hp := newHp })
        (fun q => rfl), hfind]
      rfl
    by_cases hdead : newHp = 0
    · have hcond : (decide (newHp = 0) && true) = true := by simp [hdead]
      simp only [if_pos hcond]
      have hhp2 : (findPlayer ps2 pid).map (fun q => q.hp) = some newHp := by
        rw [hps2d, findPlayer_update_map ps1 pid pid
          (fun q => { q with alive := false, deaths := q.deaths + 1 })
          (fun q => q.hp) (fun q => rfl) (fun q => rfl)]
        exact hps1
      have hhp3 : (findPlayer ps3 pid).map (fun q => q.hp) = some newHp := by
        rw [hps3d]
        by_cases hk : (findPlayer ps2 st.bullet.ownerRootId).isSome = true
        · rw [if_pos hk, findPlayer_update_map ps2 st.bullet.ownerRootId pid
            (fun q => { q with kills := q.kills + 1 })
            (fun q => q.hp) (fun q => rfl) (fun q => rfl)]
          exact hhp2
        · rw [if_neg hk]
          exact hhp2
      have hEcho3 : (findPlayer ps3 pid).map (fun q => q.isEcho) = some false := by
        have h1 : (findPlayer ps1 pid).map (fun q => q.isEcho) = some false := by
          rw [hps1d, findPlayer_update_map st.players pid pid
            (fun q => { q with hp := newHp })
            (fun q => q.isEcho) (fun q => rfl) (fun q => rfl), hfind]
          simp [hEcho]
        have h2 : (findPlayer ps2 pid).map (fun q => q.isEcho) = some false := by
          rw [hps2d, findPlayer_update_map ps1 pid pid
            (fun q => { q with alive := false, deaths := q.deaths + 1 })
            (fun q => q.isEcho) (fun q => rfl) (fun q => rfl)]
          exact h1
        rw [hps3d]
        by_cases hk : (findPlayer ps2 st.bullet.ownerRootId).isSome = true
        · rw [if_pos hk, findPlayer_update_map ps2 st.bullet.ownerRootId pid
            (fun q => { q with kills := q.kills + 1 })
            (fun q => q.isEcho) (fun q => rfl) (fun q => rfl)]
          exact h2
        · rw [if_neg hk]
          exact h2
      obtain ⟨q3, hq3, hq3e⟩ : ∃ q3, findPlayer ps3 pid = some q3 ∧ q3.isEcho = false := by
        cases hcase : findPlayer ps3 pid with
        | none => rw [hcase] at hEcho3; cases hEcho3
        | some q3 =>
          rw [hcase] at hEcho3
          exact ⟨q3, rfl, by simpa using hEcho3⟩
      have hdres : handleDeath ps3 st.shieldUntil pid =
          (updatePlayer ps3 pid (fun q => { q with shieldHp := some 0 }),
            eraseMs st.shieldUntil pid) := by
        unfold handleDeath
        rw [hq3]
        simp [hq3e]
      rw [hdres]
      refine ⟨_, [GEvent.death pid st.bullet.ownerRootId], rfl, rfl, ?_⟩
      show (findPlayer (updatePlayer ps3 pid
          (fun q => { q with shieldHp := some 0 })) pid).map (fun q => q.hp) = some newHp
      rw [findPlayer_update_map ps3 pid pid
        (fun q => { q with shieldHp := some 0 })
        (fun q => q.hp) (fun q => rfl) (fun q => rfl)]
      exact hhp3
    · have hcond : (decide (newHp = 0) && true) = false := by simp [hdead]
      simp only [hcond, Bool.false_eq_true, if_false]
      refine ⟨_, [], rfl, by simp, hps1⟩

/-- Fixture for the C9 witness: a bullet whose distance to T strictly
exceeds the sum of radii. -/
def c9FarState : HitState :=
  { bullet := { id := "c9f", ownerId := "B", ownerRootId := "B", x := 100, y := 100,
                vx := 0, vy := 0, ttlMs := 1000 }
    players := [c9Target]
    shieldUntil := []
    events := []
    removeIds := [] }

/-- Witness for C9: the no-overlap rule applied to a concrete distant
bullet — the scan step has no effect. -/
theorem overlap_tangency_rules_witness :
    hitScan c9Params ["T"] c9FarState = hitScan c9Params [] c9FarState :=
  overlap_tangency_rules.1 c9Params "T" [] c9FarState c9Target (by decide) (by decide)
    (by decide) rfl rfl (by decide) (by decide)

/-! ## Claim C6 -/

/-- updatePlayer with an id-preserving f keeps presence of any key. -/
theorem findPlayer_update_isSome (ps : List Player) (k pid : String) (f : Player → Player)
    (hf : ∀ p, (f p).id = p.id) :
    (findPlayer (updatePlayer ps k f) pid).isSome = (findPlayer ps pid).isSome := by
  have h := findPlayer_update_map ps k pid f (fun _ => ()) hf (fun _ => rfl)
  cases h1 : findPlayer (updatePlayer ps k f) pid with
  | none =>
    cases h2 : findPlayer ps pid with
    | none => rfl
    | some q => rw [h1, h2] at h; cases h
  | some q =>
    cases h2 : findPlayer ps pid with
    | none => rw [h1, h2] at h; cases h
    | some q2 => rfl

/-- Claim C6: a hit that brings an entity to hp 0 flips alive to false,
increments its deaths by one, increments the kills of the shooter-root
record by one (also when the root is the entity itself), and emits exactly
one hit and one death event; and a dead entity is skipped by every
subsequent hit test, so it cannot be damaged again before it is respawned
(the respawn is a deferred timer outside the tick). -/
theorem lethal_hit_rules :
    (∀ (P : StepParams) (pid : String) (rest : List String) (st : HitState)
        (p rootP : Player),
      findPlayer st.players pid = some p → p.alive = true → p.isEcho = false →
      p.hp = 1 → 1 ≤ st.bullet.damage.getD 1 →
      findPlayer st.players st.bullet.ownerRootId = some rootP →
      (st.bullet.bouncesLeft.isNone && (p.id == st.bullet.ownerRootId)) = false →
      P.isInvulnerable p.id = false →
      P.ignoreHit st.bullet p.id P.nowMs = false →
      isShieldActive st.players st.shieldUntil pid P.nowMs = false →
      (st.bullet.x - p.x) * (st.bullet.x - p.x) +
          (st.bullet.y - p.y) * (st.bullet.y - p.y) ≤
        (p.r + bulletRadius st.bullet) * (p.r + bulletRadius st.bullet) →
      (st.bullet.lastHitTargetId == some p.id && st.bullet.lastHitAtMs.isSome &&
        decide (P.nowMs - st.bullet.lastHitAtMs.getD 0 < 120)) = false →
      ∃ st1,
        hitScan P (pid :: rest) st =
          (if (!st.bullet.isSlash && st.bullet.bouncesLeft.isNone) = true then st1
           else hitScan P rest st1) ∧
        (findPlayer st1.players pid).map (fun q => (q.alive, q.deaths, q.hp)) =
          some (false, p.deaths + 1, 0) ∧
        (pid ≠ st.bullet.ownerRootId →
          (findPlayer st1.players st.bullet.ownerRootId).map (fun q => q.kills) =
            some (rootP.kills + 1)) ∧
        (pid = st.bullet.ownerRootId →
          (findPlayer st1.players pid).map (fun q => q.kills) = some (p.kills + 1)) ∧
        st1.events = st.events ++ [GEvent.hit pid st.bullet.ownerRootId,
          GEvent.death pid st.bullet.ownerRootId]) ∧
    (∀ (P : StepParams) (pid : String) (rest : List String) (st : HitState) (q : Player),
      findPlayer st.players pid = some q → q.alive = false →
      hitScan P (pid :: rest) st = hitScan P rest st) := by
  constructor
  · intro P pid rest st p rootP hfind halive hEcho hhp1 hdmg1 hroot hown hinv hign hshield
      hoverlap hcool
    have hpid : p.id = pid := findPlayer_id _ _ _ hfind
    have hsh0 : handleShieldHit st.players st.shieldUntil st.events p.id P.nowMs =
        (false, st.players, st.shieldUntil, st.events) := by
      unfold handleShieldHit
      rw [hpid, hshield]
      simp
    rw [hitScan]
    unfold hitPlayer
    rw [hfind]
    simp only [halive, Bool.not_true, Bool.false_eq_true, if_false, hown, hinv, hign, hsh0,
      if_pos hoverlap, hcool]
    simp only [hpid]
    set dmg := st.bullet.damage.getD 1 with hdmg
    set newHp := max 0 (p.hp - dmg) with hnew
    have hdead : newHp = 0 := by
      rw [hnew, hhp1]
      exact max_eq_left (by linarith)
    set ps1 := updatePlayer st.players pid (fun q => { q with hp := newHp }) with hps1d
    set ps2 := updatePlayer ps1 pid
      (fun q => { q with alive := false, deaths := q.deaths + 1 }) with hps2d
    have hfind1 : findPlayer ps1 pid = some { p with hp := newHp } := by
      rw [hps1d, findPlayer_update_self st.players pid (fun q => { q with hp := newHp })
        (fun q => rfl), hfind]
      rfl
    have hfind2 : findPlayer ps2 pid =
        some { p with hp := newHp, alive := false, deaths := p.deaths + 1 } := by
      rw [hps2d, findPlayer_update_self ps1 pid
        (fun q => { q with alive := false, deaths := q.deaths + 1 })
        (fun q => rfl), hfind1]
      rfl
    have hsome2 : (findPlayer ps2 st.bullet.ownerRootId).isSome = true := by
      rw [hps2d, findPlayer_update_isSome ps1 pid st.bullet.ownerRootId
          (fun q => { q with alive := false, deaths := q.deaths + 1 }) (fun q => rfl),
        hps1d, findPlayer_update_isSome st.players pid st.bullet.ownerRootId
          (fun q => { q with hp := newHp }) (fun q => rfl), hroot]
      rfl
    set ps3 := (if (findPlayer ps2 st.bullet.ownerRootId).isSome = true then
        updatePlayer ps2 st.bullet.ownerRootId (fun q => { q with kills := q.kills + 1 })
      else ps2) with hps3d
    have hps3 : ps3 = updatePlayer ps2 st.bullet.ownerRootId
        (fun q => { q with kills := q.kills + 1 }) := by
      rw [hps3d, if_pos hsome2]
    have htriple3 : (findPlayer ps3 pid).map (fun q => (q.alive, q.deaths, q.hp)) =
        some (false, p.deaths + 1, newHp) := by
      rw [hps3, findPlayer_update_map ps2 st.bullet.ownerRootId pid
        (fun q => { q with kills := q.kills + 1 })
        (fun q => (q.alive, q.deaths, q.hp)) (fun q => rfl) (fun q => rfl), hfind2]
      rfl
    have hEcho3 : (findPlayer ps3 pid).map (fun q => q.isEcho) = some false := by
      rw [hps3, findPlayer_update_map ps2 st.bullet.ownerRootId pid
        (fun q => { q with kills := q.kills + 1 })
        (fun q => q.isEcho) (fun q => rfl) (fun q => rfl), hfind2]
      simpa using hEcho
    obtain ⟨q3, hq3, hq3e⟩ : ∃ q3, findPlayer ps3 pid = some q3 ∧ q3.isEcho = false := by
      cases hcase : findPlayer ps3 pid with
      | none => rw [hcase] at hEcho3; cases hEcho3
      | some q3 =>
        rw [hcase] at hEcho3
        exact ⟨q3, rfl, by simpa using hEcho3⟩
    have hdres : handleDeath ps3 st.shieldUntil pid =
        (updatePlayer ps3 pid (fun q => { q with shieldHp := some 0 }),
          eraseMs st.shieldUntil pid) := by
      unfold handleDeath
      rw [hq3]
      simp [hq3e]
    have hcond : (decide (newHp = 0) && true) = true := by
      simp [hdead]
    simp only [if_pos hcond]
    rw [hdres]
    refine ⟨_, rfl, ?_, ?_, ?_, by simp⟩
    · show (findPlayer (updatePlayer ps3 pid (fun q => { q with shieldHp := some 0 }))
          pid).map (fun q => (q.alive, q.deaths, q.hp)) = some (false, p.deaths + 1, 0)
      rw [findPlayer_update_map ps3 pid pid (fun q => { q with shieldHp := some 0 })
        (fun q => (q.alive, q.deaths, q.hp)) (fun q => rfl) (fun q => rfl), htriple3, hdead]
    · intro hne
      show (findPlayer (updatePlayer ps3 pid (fun q => { q with shieldHp := some 0 }))
          st.bullet.ownerRootId).map (fun q => q.kills) = some (rootP.kills + 1)
      rw [findPlayer_update_ne _ pid st.bullet.ownerRootId
        (fun q => { q with shieldHp := some 0 }) (fun q => rfl) (fun hc => hne hc.symm)]
      have hroot2 : findPlayer ps2 st.bullet.ownerRootId = some rootP := by
        rw [hps2d, findPlayer_update_ne ps1 pid st.bullet.ownerRootId
            (fun q => { q with alive := false, deaths := q.deaths + 1 }) (fun q => rfl)
            (fun hc => hne hc.symm),
          hps1d, findPlayer_update_ne st.players pid st.bullet.ownerRootId
            (fun q => { q with hp := newHp }) (fun q => rfl) (fun hc => hne hc.symm)]
        exact hroot
      rw [hps3, findPlayer_update_self ps2 st.bullet.ownerRootId
        (fun q => { q with kills := q.kills + 1 }) (fun q => rfl), hroot2]
      rfl
    · intro heq
      show (findPlayer (updatePlayer ps3 pid (fun q => { q with shieldHp := some 0 }))
          pid).map (fun q => q.kills) = some (p.kills + 1)
      rw [findPlayer_update_map ps3 pid pid (fun q => { q with shieldHp := some 0 })
        (fun q => q.kills) (fun q => rfl) (fun q => rfl)]
      rw [hps3, ← heq, findPlayer_update_self ps2 pid
        (fun q => { q with kills := q.kills + 1 }) (fun q => rfl), hfind2]
      rfl
  · intro P pid rest st q hfind hdead
    rw [hitScan]
    unfold hitPlayer
    rw [hfind]
    simp [hdead]

/-- Fixture for the C6 witness: the victim at hp 1. -/
def c6Victim : Player := { id := "V", x := 600, y := 400, hp := 1 }

/-- Fixture for the C6 witness: the shooter-root on the roster. -/
def c6Shooter : Player := { id := "S", x := 100, y := 100, hp := 3 }

/-- Fixture for the C6 witness: a plain bullet of S overlapping V. -/
def c6State : HitState :=
  { bullet := { id := "c6b", ownerId := "S", ownerRootId := "S", x := 600, y := 405,
                vx := 0, vy := 0, ttlMs := 1000, bouncesLeft := some 1 }
    players := [c6Victim, c6Shooter]
    shieldUntil := []
    events := []
    removeIds := [] }

/-- Witness for C6: the lethal-hit rule applied to a concrete hp-1 victim
hit by a bullet of S. -/
theorem lethal_hit_rules_witness :
    ∃ st1,
      hitScan { dtSeconds := 1/20, nowMs := 1000 } ("V" :: []) c6State =
        (if (!c6State.bullet.isSlash && c6State.bullet.bouncesLeft.isNone) = true then st1
         else hitScan { dtSeconds := 1/20, nowMs := 1000 } [] st1) ∧
      (findPlayer st1.players "V").map (fun q => (q.alive, q.deaths, q.hp)) =
        some (false, c6Victim.deaths + 1, 0) ∧
      ("V" ≠ c6State.bullet.ownerRootId →
        (findPlayer st1.players c6State.bullet.ownerRootId).map (fun q => q.kills) =
          some (c6Shooter.kills + 1)) ∧
      ("V" = c6State.bullet.ownerRootId →
        (findPlayer st1.players "V").map (fun q => q.kills) = some (c6Victim.kills + 1)) ∧
      st1.events = c6State.events ++ [GEvent.hit "V" c6State.bullet.ownerRootId,
        GEvent.death "V" c6State.bullet.ownerRootId] :=
  lethal_hit_rules.1 { dtSeconds := 1/20, nowMs := 1000 } "V" [] c6State c6Victim c6Shooter
    (by decide) (by decide) (by decide) (by decide) (by decide) (by decide) (by decide)
    rfl rfl (by decide) (by decide) (by decide)

/-! ## Claim C5 -/

/-- Recognizer for hit events. -/
def isHitEvent : GEvent → Bool
  | GEvent.hit _ _ => true
  | _ => false

/-- Number of hit events in an event list. -/
def hitCount (evs : List GEvent) : Nat := (evs.filter isHitEvent).length

/-- handleShieldHit never emits hit events. -/
theorem handleShieldHit_hitCount (ps : List Player) (su : List (String × ℚ))
    (evs : List GEvent) (pid : String) (now : ℚ) :
    hitCount (handleShieldHit ps su evs pid now).2.2.2 = hitCount evs := by
  cases hact : isShieldActive ps su pid now with
  | false =>
    unfold handleShieldHit
    rw [hact]
    rfl
  | true =>
    unfold handleShieldHit
    rw [hact]
    simp only [Bool.not_true, Bool.false_eq_true, if_false]
    cases hfind : findPlayer ps pid with
    | none => rfl
    | some p =>
      cases hecho : p.isEcho with
      | true => simp [hecho]
      | false =>
        simp only [hecho, Bool.false_eq_true, if_false]
        split
        · unfold breakShield
          split
          · simp [hitCount, isHitEvent]
          · split
            · simp [hitCount, isHitEvent]
            · simp [hitCount, isHitEvent]
        · simp [hitCount, isHitEvent]

/-- For a plain (non-slash, non-bounce) bullet one hit-loop step either
leaves the scan state unchanged and continues, or breaks the loop having
marked the bullet for removal and appended at most one hit event. -/
theorem hitPlayer_plain (P : StepParams) (st : HitState) (pid : String)
    (hslash : st.bullet.isSlash = false) (hbounce : st.bullet.bouncesLeft = none) :
    hitPlayer P st pid = (st, false) ∨
    ((hitPlayer P st pid).2 = true ∧
      hitCount (hitPlayer P st pid).1.events ≤ hitCount st.events + 1 ∧
      (hitPlayer P st pid).1.removeIds.contains st.bullet.id = true) := by
  cases hres : hitPlayer P st pid with
  | mk st1 brk =>
    unfold hitPlayer at hres
    cases hfind : findPlayer st.players pid with
    | none =>
      rw [hfind] at hres
      exact Or.inl hres.symm
    | some player =>
      rw [hfind] at hres
      simp only [hslash, hbounce, Option.isNone_none, Bool.not_false, Bool.true_and,
        Bool.and_self, if_true] at hres
      by_cases halive : (!player.alive) = true
      · rw [if_pos halive] at hres
        exact Or.inl hres.symm
      rw [if_neg halive] at hres
      by_cases hown : (player.id == st.bullet.ownerRootId) = true
      · rw [if_pos hown] at hres
        exact Or.inl hres.symm
      rw [if_neg hown] at hres
      by_cases hinv : P.isInvulnerable player.id = true
      · rw [if_pos hinv] at hres
        exact Or.inl hres.symm
      rw [if_neg hinv] at hres
      by_cases hign : P.ignoreHit st.bullet player.id P.nowMs = true
      · rw [if_pos hign] at hres
        injection hres with h1 h2
        subst h1; subst h2
        exact Or.inr ⟨rfl, Nat.le_succ _, by simp⟩
      rw [if_neg hign] at hres
      by_cases hsh : (handleShieldHit st.players st.shieldUntil st.events
          player.id P.nowMs).1 = true
      · rw [if_pos hsh] at hres
        injection hres with h1 h2
        subst h1; subst h2
        refine Or.inr ⟨rfl, ?_, by simp⟩
        show hitCount (handleShieldHit st.players st.shieldUntil st.events
            player.id P.nowMs).2.2.2 ≤ hitCount st.events + 1
        rw [handleShieldHit_hitCount]
        exact Nat.le_succ _
      rw [if_neg hsh] at hres
      by_cases hov : (st.bullet.x - player.x) * (st.bullet.x - player.x) +
          (st.bullet.y - player.y) * (st.bullet.y - player.y) ≤
          (player.r + bulletRadius st.bullet) * (player.r + bulletRadius st.bullet)
      · rw [if_pos hov] at hres
        by_cases hcool : (st.bullet.lastHitTargetId == some player.id
            && st.bullet.lastHitAtMs.isSome
            && decide (P.nowMs - st.bullet.lastHitAtMs.getD 0 < 120)) = true
        · rw [if_pos hcool] at hres
          exact Or.inl hres.symm
        · rw [if_neg hcool] at hres
          injection hres with h1 h2
          subst h1; subst h2
          refine Or.inr ⟨rfl, ?_, by simp⟩
          split
          · show hitCount ((st.events ++ [GEvent.hit player.id st.bullet.ownerRootId]) ++
                [GEvent.death player.id st.bullet.ownerRootId]) ≤ hitCount st.events + 1
            simp [hitCount, isHitEvent]
          · show hitCount (st.events ++ [GEvent.hit player.id st.bullet.ownerRootId]) ≤
                hitCount st.events + 1
            simp [hitCount, isHitEvent]
      · rw [if_neg hov] at hres
        exact Or.inl hres.symm

/-- Per-bullet hit loop for a plain (non-slash, non-bounce) bullet: at most
one hit event is produced, and when one is produced the bullet is marked
for removal. -/
theorem hitScan_plain_single (P : StepParams) (pids : List String) (st : HitState)
    (hslash : st.bullet.isSlash = false) (hbounce : st.bullet.bouncesLeft = none) :
    hitCount (hitScan P pids st).events ≤ hitCount st.events + 1 ∧
    (hitCount st.events < hitCount (hitScan P pids st).events →
      (hitScan P pids st).removeIds.contains st.bullet.id = true) := by
  revert hslash hbounce
  induction pids generalizing st with
  | nil =>
    intro hslash hbounce
    exact ⟨Nat.le_succ _, fun h => absurd h (lt_irrefl _)⟩
  | cons pid rest ih =>
    intro hslash hbounce
    rw [hitScan]
    rcases hitPlayer_plain P st pid hslash hbounce with heq | ⟨hbrk, hle, hcont⟩
    · rw [heq]
      simp only [Bool.false_eq_true, if_false]
      exact ih st hslash hbounce
    · rw [if_pos hbrk]
      exact ⟨hle, fun h => hcont⟩

/-- Per-player step for a bullet with a bounce budget: a damaging hit does
not mark the bullet for removal and the scan continues. -/
theorem hitScan_bouncer_survives (P : StepParams) (pid : String) (rest : List String)
    (st : HitState) (p : Player) (n : ℚ)
    (hfind : findPlayer st.players pid = some p)
    (halive : p.alive = true) (hEcho : p.isEcho = false)
    (hb : st.bullet.bouncesLeft = some n)
    (hinv : P.isInvulnerable p.id = false)
    (hign : P.ignoreHit st.bullet p.id P.nowMs = false)
    (hshield : isShieldActive st.players st.shieldUntil pid P.nowMs = false)
    (hoverlap : (st.bullet.x - p.x) * (st.bullet.x - p.x) +
        (st.bullet.y - p.y) * (st.bullet.y - p.y) ≤
      (p.r + bulletRadius st.bullet) * (p.r + bulletRadius st.bullet))
    (hcool : (st.bullet.lastHitTargetId == some p.id && st.bullet.lastHitAtMs.isSome &&
      decide (P.nowMs - st.bullet.lastHitAtMs.getD 0 < 120)) = false) :
    ∃ st1, hitScan P (pid :: rest) st = hitScan P rest st1 ∧
      st1.removeIds = st.removeIds ∧
      st1.bullet.bouncesLeft = some n ∧
      (findPlayer st1.players pid).map (fun q => q.hp) =
        some (max 0 (p.hp - st.bullet.damage.getD 1)) := by
  have hpid : p.id = pid := findPlayer_id _ _ _ hfind
  have hsh0 : handleShieldHit st.players st.shieldUntil st.events p.id P.nowMs =
      (false, st.players, st.shieldUntil, st.events) := by
    unfold handleShieldHit
    rw [hpid, hshield]
    simp
  rw [hitScan]
  unfold hitPlayer
  rw [hfind]
  simp only [halive, Bool.not_true, Bool.false_eq_true, if_false, hb, Option.isNone_some,
    Bool.false_and, Bool.and_false, hinv, hign, hsh0, if_pos hoverlap, hcool]
  simp only [hpid]
  set dmg := st.bullet.damage.getD 1 with hdmg
  set newHp := max 0 (p.hp - dmg) with hnew
  set ps1 := updatePlayer st.players pid (fun q => { q with hp := newHp }) with hps1d
  have hps1 : (findPlayer ps1 pid).map (fun q => q.hp) = some newHp := by
    rw [hps1d, findPlayer_update_self st.players pid (fun q => { q with hp := newHp })
      (fun q => rfl), hfind]
    rfl
  by_cases hdead : newHp = 0
  · have hcond : (decide (newHp = 0) && true) = true := by
      simp [hdead]
    simp only [if_pos hcond]
    set ps2 := updatePlayer ps1 pid
      (fun q => { q with alive := false, deaths := q.deaths + 1 }) with hps2d
    set ps3 := (if (findPlayer ps2 st.bullet.ownerRootId).isSome = true then
        updatePlayer ps2 st.bullet.ownerRootId (fun q => { q with kills := q.kills + 1 })
      else ps2) with hps3d
    have hhp2 : (findPlayer ps2 pid).map (fun q => q.hp) = some newHp := by
      rw [hps2d, findPlayer_update_map ps1 pid pid
        (fun q => { q with alive := false, deaths := q.deaths + 1 })
        (fun q => q.hp) (fun q => rfl) (fun q => rfl)]
      exact hps1
    have hhp3 : (findPlayer ps3 pid).map (fun q => q.hp) = some newHp := by
      rw [hps3d]
      by_cases hk : (findPlayer ps2 st.bullet.ownerRootId).isSome = true
      · rw [if_pos hk, findPlayer_update_map ps2 st.bullet.ownerRootId pid
          (fun q => { q with kills := q.kills + 1 })
          (fun q => q.hp) (fun q => rfl) (fun q => rfl)]
        exact hhp2
      · rw [if_neg hk]
        exact hhp2
    have hEcho3 : (findPlayer ps3 pid).map (fun q => q.isEcho) = some false := by
      have h1 : (findPlayer ps1 pid).map (fun q => q.isEcho) = some false := by
        rw [hps1d, findPlayer_update_map st.players pid pid
          (fun q => { q with hp := newHp })
          (fun q => q.isEcho) (fun q => rfl) (fun q => rfl), hfind]
        simp [hEcho]
      have h2 : (findPlayer ps2 pid).map (fun q => q.isEcho) = some false := by
        rw [hps2d, findPlayer_update_map ps1 pid pid
          (fun q => { q with alive := false, deaths := q.deaths + 1 })
          (fun q => q.isEcho) (fun q => rfl) (fun q => rfl)]
        exact h1
      rw [hps3d]
      by_cases hk : (findPlayer ps2 st.bullet.ownerRootId).isSome = true
      · rw [if_pos hk, findPlayer_update_map ps2 st.bullet.ownerRootId pid
          (fun q => { q with kills := q.kills + 1 })
          (fun q => q.isEcho) (fun q => rfl) (fun q => rfl)]
        exact h2
      · rw [if_neg hk]
        exact h2
    obtain ⟨q3, hq3, hq3e⟩ : ∃ q3, findPlayer ps3 pid = some q3 ∧ q3.isEcho = false := by
      cases hcase : findPlayer ps3 pid with
      | none => rw [hcase] at hEcho3; cases hEcho3
      | some q3 =>
        rw [hcase] at hEcho3
        exact ⟨q3, rfl, by simpa using hEcho3⟩
    have hdres : handleDeath ps3 st.shieldUntil pid =
        (updatePlayer ps3 pid (fun q => { q with shieldHp := some 0 }),
          eraseMs st.shieldUntil pid) := by
      unfold handleDeath
      rw [hq3]
      simp [hq3e]
    rw [hdres]
    refine ⟨_, rfl, rfl, by simp [hb], ?_⟩
    show (findPlayer (updatePlayer ps3 pid
        (fun q => { q with shieldHp := some 0 })) pid).map (fun q => q.hp) = some newHp
    rw [findPlayer_update_map ps3 pid pid
      (fun q => { q with shieldHp := some 0 })
      (fun q => q.hp) (fun q => rfl) (fun q => rfl)]
    exact hhp3
  · have hcond : (decide (newHp = 0) && true) = false := by
      simp [hdead]
    simp only [hcond, Bool.false_eq_true, if_false]
    exact ⟨_, rfl, rfl, by simp [hb], hps1⟩

/-- bounceX leaves every field other than x and vx unchanged. -/
theorem bounceX_fields (w radius : ℚ) (b : Bullet) :
    (bounceX w radius b).1.damage = b.damage ∧ (bounceX w radius b).1.radius = b.radius ∧
    (bounceX w radius b).1.r = b.r ∧ (bounceX w radius b).1.bouncesLeft = b.bouncesLeft ∧
    (bounceX w radius b).1.ttlMs = b.ttlMs := by
  unfold bounceX
  split
  · exact ⟨rfl, rfl, rfl, rfl, rfl⟩
  · split
    · exact ⟨rfl, rfl, rfl, rfl, rfl⟩
    · exact ⟨rfl, rfl, rfl, rfl, rfl⟩

/-- bounceY leaves every field other than y and vy unchanged. -/
theorem bounceY_fields (h radius : ℚ) (b : Bullet) :
    (bounceY h radius b).1.damage = b.damage ∧ (bounceY h radius b).1.radius = b.radius ∧
    (bounceY h radius b).1.r = b.r ∧ (bounceY h radius b).1.bouncesLeft = b.bouncesLeft ∧
    (bounceY h radius b).1.ttlMs = b.ttlMs := by
  unfold bounceY
  split
  · exact ⟨rfl, rfl, rfl, rfl, rfl⟩
  · split
    · exact ⟨rfl, rfl, rfl, rfl, rfl⟩
    · exact ⟨rfl, rfl, rfl, rfl, rfl⟩

/-- Wall-bounce bookkeeping of moveBullet: on a wall crossing the damage
doubles, the effective radius shrinks by 20 percent, the budget decrements,
and the bullet is marked for removal exactly when the decremented budget is
at most 0 or the ttl has expired. -/
theorem moveBullet_bounce (P : StepParams) (b : Bullet) (n : ℚ)
    (hb : b.bouncesLeft = some n)
    (hbounced : (bounceX P.arenaW (bulletRadius (integrate P b)) (integrate P b)).2 = true ∨
      (bounceY P.arenaH (bulletRadius (integrate P b))
        (bounceX P.arenaW (bulletRadius (integrate P b)) (integrate P b)).1).2 = true) :
    (moveBullet P b).1.damage = some (b.damage.getD 1 * 2) ∧
    (moveBullet P b).1.radius = some (bulletRadius b * (4/5)) ∧
    (moveBullet P b).1.bouncesLeft = some (n - 1) ∧
    ((moveBullet P b).2 = true ↔ (n - 1 ≤ 0 ∨ (integrate P b).ttlMs ≤ 0)) := by
  have hrad : bulletRadius (integrate P b) = bulletRadius b := rfl
  unfold moveBullet
  rw [hb]
  have hcond : ((bounceX P.arenaW (bulletRadius (integrate P b)) (integrate P b)).2
      || (bounceY P.arenaH (bulletRadius (integrate P b))
          (bounceX P.arenaW (bulletRadius (integrate P b)) (integrate P b)).1).2) = true := by
    rcases hbounced with h | h
    · simp [h]
    · simp [h]
  simp only [if_pos hcond]
  set bX := bounceX P.arenaW (bulletRadius (integrate P b)) (integrate P b) with hbX
  set bY := bounceY P.arenaH (bulletRadius (integrate P b)) bX.1 with hbY
  have hdam : bY.1.damage = b.damage := by
    rw [hbY]
    rw [(bounceY_fields _ _ _).1, hbX, (bounceX_fields _ _ _).1]
    rfl
  have httl : bY.1.ttlMs = (integrate P b).ttlMs := by
    rw [hbY]
    rw [(bounceY_fields _ _ _).2.2.2.2, hbX, (bounceX_fields _ _ _).2.2.2.2]
  refine ⟨?_, ?_, trivial, ?_⟩
  · show some (bY.1.damage.getD 1 * 2) = some (b.damage.getD 1 * 2)
    rw [hdam]
  · rw [hrad]
  · show (decide (n - 1 ≤ 0) || decide (bY.1.ttlMs ≤ 0)) = true ↔ _
    rw [httl]
    simp

/-- Claim C5: (a) a plain (non-slash, non-bounce) bullet scores at most one
hit per scan and is marked for removal when it hits; (b) a bullet with a
bounce budget survives a damaging hit (it is not marked for removal and
keeps its budget); (c) every wall bounce doubles the damage, shrinks the
effective radius by 20 percent, decrements the budget, and removes the
bullet exactly when the budget reaches 0 (or its ttl expired). -/
theorem bullet_lifecycle_rules :
    (∀ (P : StepParams) (pids : List String) (st : HitState),
      st.bullet.isSlash = false → st.bullet.bouncesLeft = none →
      hitCount (hitScan P pids st).events ≤ hitCount st.events + 1 ∧
      (hitCount st.events < hitCount (hitScan P pids st).events →
        (hitScan P pids st).removeIds.contains st.bullet.id = true)) ∧
    (∀ (P : StepParams) (pid : String) (rest : List String) (st : HitState)
        (p : Player) (n : ℚ),
      findPlayer st.players pid = some p → p.alive = true → p.isEcho = false →
      st.bullet.bouncesLeft = some n →
      P.isInvulnerable p.id = false → P.ignoreHit st.bullet p.id P.nowMs = false →
      isShieldActive st.players st.shieldUntil pid P.nowMs = false →
      (st.bullet.x - p.x) * (st.bullet.x - p.x) +
          (st.bullet.y - p.y) * (st.bullet.y - p.y) ≤
        (p.r + bulletRadius st.bullet) * (p.r + bulletRadius st.bullet) →
      (st.bullet.lastHitTargetId == some p.id && st.bullet.lastHitAtMs.isSome &&
        decide (P.nowMs - st.bullet.lastHitAtMs.getD 0 < 120)) = false →
      ∃ st1, hitScan P (pid :: rest) st = hitScan P rest st1 ∧
        st1.removeIds = st.removeIds ∧
        st1.bullet.bouncesLeft = some n ∧
        (findPlayer st1.players pid).map (fun q => q.hp) =
          some (max 0 (p.hp - st.bullet.damage.getD 1))) ∧
    (∀ (P : StepParams) (b : Bullet) (n : ℚ),
      b.bouncesLeft = some n →
      ((bounceX P.arenaW (bulletRadius (integrate P b)) (integrate P b)).2 = true ∨
        (bounceY P.arenaH (bulletRadius (integrate P b))
          (bounceX P.arenaW (bulletRadius (integrate P b)) (integrate P b)).1).2 = true) →
      (moveBullet P b).1.damage = some (b.damage.getD 1 * 2) ∧
      (moveBullet P b).1.radius = some (bulletRadius b * (4/5)) ∧
      (moveBullet P b).1.bouncesLeft = some (n - 1) ∧
      ((moveBullet P b).2 = true ↔ (n - 1 ≤ 0 ∨ (integrate P b).ttlMs ≤ 0))) :=
  ⟨hitScan_plain_single, hitScan_bouncer_survives, moveBullet_bounce⟩

/-- Fixture for the C5 witness: a bouncer near the left wall. -/
def c5Wall : Bullet :=
  { id := "c5w", ownerId := "A", ownerRootId := "A", x := 30, y := 400, vx := -200,
    vy := 0, ttlMs := 5000, bouncesLeft := some 6, damage := some 1, radius := some 36 }

/-- Fixture for the C5 witness. -/
def c5Params : StepParams := { dtSeconds := 1/20, nowMs := 1000 }

/-- Witness for C5: the bounce-arithmetic part applied to a concrete
bouncer crossing the left wall — damage 1 to 2, radius 36 to 28.8, budget
6 to 5, not removed. -/
theorem bullet_lifecycle_rules_witness :
    (moveBullet c5Params c5Wall).1.damage = some (c5Wall.damage.getD 1 * 2) ∧
    (moveBullet c5Params c5Wall).1.radius = some (bulletRadius c5Wall * (4/5)) ∧
    (moveBullet c5Params c5Wall).1.bouncesLeft = some (6 - 1) ∧
    ((moveBullet c5Params c5Wall).2 = true ↔
      ((6 : ℚ) - 1 ≤ 0 ∨ (integrate c5Params c5Wall).ttlMs ≤ 0)) :=
  bullet_lifecycle_rules.2.2 c5Params c5Wall 6 (by decide) (by decide)

/-! ## Claim C10 -/

/-- The reset state reached by restartMatch: every non-echo roster entry is
respawned with zeroed score, full hp, cleared item and shield at a valid
spawn point; all transient collections are cleared; the phase is lobby with
both match timestamps cleared. -/
def RosterReset (room : Room) : Prop :=
  (∀ p, p ∈ room.players → p.isEcho = false →
    p.kills = 0 ∧ p.deaths = 0 ∧ p.hp = room.maxHp ∧ p.alive = true ∧
    p.heldItem = none ∧ p.shieldHp = some 0 ∧ (p.x, p.y) ∈ SPAWN_POINTS) ∧
  room.bullets = [] ∧ room.zones = [] ∧ room.strikes = [] ∧
  room.pendingStrikes = [] ∧ room.portals = [] ∧ room.pendingPortals = [] ∧
  room.echoes = [] ∧
  room.matchPhase = MatchPhase.lobby ∧ room.startedAtMs = none ∧ room.endsAtMs = none

/-- Every oracle draw lands on one of the four fixed spawn points. -/
theorem spawnPoint_mem (rand : Nat → Nat) (k : Nat) : spawnPoint rand k ∈ SPAWN_POINTS := by
  unfold spawnPoint
  have h4 : rand k % 4 < 4 := Nat.mod_lt _ (by norm_num)
  set m := rand k % 4 with hm
  interval_cases m <;> simp [SPAWN_POINTS]

/-- restartMatch always lands in the reset state. -/
theorem restartMatch_reset (rand : Nat → Nat) (room : Room) :
    RosterReset (restartMatch rand room) := by
  unfold restartMatch resetForMatch RosterReset
  refine ⟨?_, rfl, rfl, rfl, rfl, rfl, rfl, rfl, rfl, rfl, rfl⟩
  intro p hp hecho
  simp only [List.mem_map] at hp
  obtain ⟨ip, hmem, hip⟩ := hp
  by_cases he : ip.2.isEcho = true
  · rw [if_pos he] at hip
    rw [← hip] at hecho
    rw [hecho] at he
    cases he
  · rw [if_neg he] at hip
    subst hip
    refine ⟨rfl, rfl, rfl, rfl, rfl, rfl, ?_⟩
    exact spawnPoint_mem rand ip.1

/-- Claim C10: restarting the match twice in a row produces the same
roster-reset state both times: after each of the two calls every non-echo
entity has kills and deaths zeroed, hp equal to the configured maximum,
alive true, held item and shield cleared, and a position at one of the
fixed spawn points; all projectiles, zones, strikes, pending strikes,
portals and echoes are cleared; and the match phase is lobby with the start
and end timestamps cleared. -/
theorem match_reset_idempotent (rand1 rand2 : Nat → Nat) (room : Room) :
    RosterReset (restartMatch rand1 room) ∧
    RosterReset (restartMatch rand2 (restartMatch rand1 room)) :=
  ⟨restartMatch_reset rand1 room, restartMatch_reset rand2 (restartMatch rand1 room)⟩

/-! ## Claim C7 -/

/-- Recognizer for strike_boom events. -/
def isBoomEvent : GEvent → Bool
  | GEvent.strikeBoom _ _ _ _ => true
  | _ => false

/-- Number of strike_boom events in an event list. -/
def boomCount (evs : List GEvent) : Nat := (evs.filter isBoomEvent).length

/-- handleShieldHit never emits strike_boom events. -/
theorem handleShieldHit_boomCount (ps : List Player) (su : List (String × ℚ))
    (evs : List GEvent) (pid : String) (now : ℚ) :
    boomCount (handleShieldHit ps su evs pid now).2.2.2 = boomCount evs := by
  cases hact : isShieldActive ps su pid now with
  | false =>
    unfold handleShieldHit
    rw [hact]
    rfl
  | true =>
    unfold handleShieldHit
    rw [hact]
    simp only [Bool.not_true, Bool.false_eq_true, if_false]
    cases hfind : findPlayer ps pid with
    | none => rfl
    | some p =>
      cases hecho : p.isEcho with
      | true => simp [hecho]
      | false =>
        simp only [hecho, Bool.false_eq_true, if_false]
        split
        · unfold breakShield
          split
          · simp [boomCount, isBoomEvent]
          · split
            · simp [boomCount, isBoomEvent]
            · simp [boomCount, isBoomEvent]
        · simp [boomCount, isBoomEvent]

/-- killEntity never emits strike_boom events. -/
theorem killEntity_boomCount (ps : List Player) (su : List (String × ℚ))
    (evs : List GEvent) (targetId byRootId : String) :
    boomCount (killEntity ps su evs targetId byRootId).2.2 = boomCount evs := by
  unfold killEntity
  split
  · rfl
  · split
    · rfl
    · simp [boomCount, isBoomEvent]

/-- One strike loop step never emits strike_boom events. -/
theorem strikePlayerStep_boomCount (strike : Strike) (nowMs : ℚ) (ps : List Player)
    (su : List (String × ℚ)) (evs : List GEvent) (pid : String) :
    boomCount (strikePlayerStep strike nowMs (ps, su, evs) pid).2.2 = boomCount evs := by
  simp only [strikePlayerStep]
  split
  · rfl
  next target heq =>
    split
    · rfl
    split
    · rfl
    split
    · exact handleShieldHit_boomCount ps su evs target.id nowMs
    split
    · rfl
    split
    · exact killEntity_boomCount ps su evs target.id strike.byId
    · simp [boomCount, isBoomEvent]

/-- The strike loop over any roster never emits strike_boom events. -/
theorem strikeFold_boomCount (strike : Strike) (nowMs : ℚ) (pids : List String)
    (acc : List Player × List (String × ℚ) × List GEvent) :
    boomCount ((pids.foldl (strikePlayerStep strike nowMs) acc)).2.2 =
      boomCount acc.2.2 := by
  induction pids generalizing acc with
  | nil => rfl
  | cons pid rest ih =>
    rw [List.foldl_cons, ih]
    exact strikePlayerStep_boomCount strike nowMs acc.1 acc.2.1 acc.2.2 pid

/-- resolveStrike emits exactly one strike_boom event. -/
theorem resolveStrike_boomCount (strike : Strike) (nowMs : ℚ) (ps : List Player)
    (su : List (String × ℚ)) (evs : List GEvent) :
    boomCount (resolveStrike strike nowMs ps su evs).2.2 = boomCount evs + 1 := by
  unfold resolveStrike
  have h := strikeFold_boomCount strike nowMs (ps.map (fun p => p.id)) (ps, su, evs)
  simp only [boomCount] at h ⊢
  simp [List.filter_append, isBoomEvent, h]

/-- handleShieldHit never changes any hp. -/
theorem handleShieldHit_hp (ps : List Player) (su : List (String × ℚ))
    (evs : List GEvent) (pid qid : String) (now : ℚ) :
    (findPlayer (handleShieldHit ps su evs pid now).2.1 qid).map (fun q => q.hp) =
      (findPlayer ps qid).map (fun q => q.hp) := by
  unfold handleShieldHit
  split
  · rfl
  · split
    · rfl
    next p heq =>
      split
      · rfl
      · simp only []
        split
        · unfold breakShield
          split
          · exact findPlayer_update_map ps pid qid _ (fun q => q.hp)
              (fun q => rfl) (fun q => rfl)
          · split
            · exact findPlayer_update_map ps pid qid _ (fun q => q.hp)
                (fun q => rfl) (fun q => rfl)
            · show (findPlayer (updatePlayer
                  (updatePlayer ps pid (fun q => { q with shieldHp := some (max 0 (p.shieldHp.getD 0 - 1)) }))
                  pid (fun q => { q with shieldHp := some 0 })) qid).map (fun q => q.hp) = _
              rw [findPlayer_update_map _ pid qid
                  (fun q => { q with shieldHp := some 0 }) (fun q => q.hp)
                  (fun q => rfl) (fun q => rfl),
                findPlayer_update_map ps pid qid
                  (fun q => { q with shieldHp := some (max 0 (p.shieldHp.getD 0 - 1)) })
                  (fun q => q.hp) (fun q => rfl) (fun q => rfl)]
        · exact findPlayer_update_map ps pid qid _ (fun q => q.hp)
            (fun q => rfl) (fun q => rfl)

/-- find? skips a prefix in which nothing matches. -/
theorem find_append_none {α : Type} (p : α → Bool) (l1 l2 : List α)
    (h : l1.find? p = none) : (l1 ++ l2).find? p = l2.find? p := by
  induction l1 with
  | nil => rfl
  | cons a l ih =>
    rw [List.cons_append]
    cases hpa : p a with
    | true => rw [find_cons_pos p a l hpa] at h; cases h
    | false =>
      rw [find_cons_neg p a l hpa] at h
      rw [find_cons_neg p a (l ++ l2) hpa]
      exact ih h

/-- Looking a key up after filtering it out misses. -/
theorem find_filter_ne {β : Type} (l : List (String × β)) (pid : String) :
    (l.filter (fun e => e.1 != pid)).find? (fun e => e.1 == pid) = none := by
  induction l with
  | nil => rfl
  | cons a l ih =>
    rw [List.filter_cons]
    cases h : (a.1 == pid) with
    | true =>
      have hb : (a.1 != pid) = false := by simp [bne, h]
      rw [hb]
      simp only [Bool.false_eq_true, if_false]
      exact ih
    | false =>
      have hb : (a.1 != pid) = true := by simp [bne, h]
      rw [hb, if_pos rfl]
      rw [find_cons_neg (fun e => e.1 == pid) a (List.filter (fun e => e.1 != pid) l) h]
      exact ih

/-- Arming: activating a held orbital strike leaves the roster untouched and
opens a 5 second targeting window. -/
theorem activateOrbital_arms (room : Room) (pid : String) (nowMs : ℚ) (player : Player)
    (hfind : findPlayer room.players pid = some player)
    (hheld : player.heldItem = some Ability.orbital_strike)
    (halive : player.alive = true) (hecho : player.isEcho = false)
    (hpend : room.pendingStrikes.find? (fun e => e.1 == pid) = none) :
    (activateOrbital room pid nowMs).players = room.players ∧
    (((activateOrbital room pid nowMs).pendingStrikes.find?
        (fun e => e.1 == pid)).map Prod.snd) =
      some { active := true, expiresAtMs := nowMs + 5000 } := by
  have hpid : player.id = pid := findPlayer_id _ _ _ hfind
  unfold activateOrbital
  rw [hfind]
  simp only []
  rw [if_neg (by simp [hheld])]
  rw [if_neg (by simp [halive])]
  unfold beginStrikeTargeting
  rw [if_neg (by simp [hecho])]
  rw [hpid, hpend]
  simp only [Option.map_none']
  refine ⟨trivial, ?_⟩
  rw [find_append_none _ _ _ hpend]
  rw [find_cons_pos (fun e => e.1 == pid) (pid,
    ({ active := true, expiresAtMs := nowMs + 5000 } : PendingStrike)) [] (by simp)]
  rfl

/-- Commit: a valid confirm inside the window pushes the strike (detonation
in 1000 ms, radius 120, damage 2, clamped target), clears the window and the
held item, and queues the strike_mark event. -/
theorem confirmStrike_commits (room : Room) (pid : String) (x y nowMs : ℚ)
    (player : Player) (pending : PendingStrike)
    (hphase : room.matchPhase = MatchPhase.playing)
    (hfind : findPlayer room.players pid = some player)
    (hecho : player.isEcho = false) (halive : player.alive = true)
    (hpend : ((room.pendingStrikes.find? (fun e => e.1 == pid)).map Prod.snd) =
      some pending)
    (hact : pending.active = true) (hexp : ¬nowMs > pending.expiresAtMs)
    (hheld : player.heldItem = some Ability.orbital_strike) :
    (confirmStrike room pid x y nowMs).strikes = room.strikes ++
      [{ id := room.roomId ++ "-s-" ++ toString room.strikeSeq,
         x := clampQ x 0 ARENA_W, y := clampQ y 0 ARENA_H,
         explodeAtMs := nowMs + 1000, r := 120, damage := 2, byId := pid }] ∧
    ((findPlayer (confirmStrike room pid x y nowMs).players pid).map
        (fun q => q.heldItem)) = some none ∧
    ((confirmStrike room pid x y nowMs).pendingStrikes.find?
      (fun e => e.1 == pid)) = none ∧
    (confirmStrike room pid x y nowMs).pendingEvents = room.pendingEvents ++
      [GEvent.strikeMark (room.roomId ++ "-s-" ++ toString room.strikeSeq)
        (clampQ x 0 ARENA_W) (clampQ y 0 ARENA_H) 1000] := by
  unfold confirmStrike
  rw [if_neg (by simp [hphase])]
  rw [hfind]
  simp only []
  rw [if_neg (by simp [hecho])]
  rw [if_neg (by simp [halive])]
  rw [hpend]
  simp only []
  rw [if_neg (by simp [hact])]
  rw [if_neg (by simp [hexp])]
  rw [if_neg (by simp [hheld])]
  refine ⟨rfl, ?_, ?_, rfl⟩
  · show ((findPlayer (updatePlayer room.players pid
        (fun q => { q with heldItem := none })) pid).map (fun q => q.heldItem)) = some none
    rw [findPlayer_update_self room.players pid (fun q => { q with heldItem := none })
      (fun q => rfl), hfind]
    rfl
  · exact find_filter_ne room.pendingStrikes pid

/-- A confirm while the match is not playing is a no-op. -/
theorem confirmStrike_noop_phase (room : Room) (pid : String) (x y nowMs : ℚ)
    (hphase : room.matchPhase ≠ MatchPhase.playing) :
    confirmStrike room pid x y nowMs = room := by
  unfold confirmStrike
  rw [if_pos hphase]

/-- A confirm after the targeting window expired is a no-op. -/
theorem confirmStrike_noop_expired (room : Room) (pid : String) (x y nowMs : ℚ)
    (player : Player) (pending : PendingStrike)
    (hphase : room.matchPhase = MatchPhase.playing)
    (hfind : findPlayer room.players pid = some player)
    (hecho : player.isEcho = false) (halive : player.alive = true)
    (hpend : ((room.pendingStrikes.find? (fun e => e.1 == pid)).map Prod.snd) =
      some pending)
    (hact : pending.active = true) (hexp : nowMs > pending.expiresAtMs) :
    confirmStrike room pid x y nowMs = room := by
  unfold confirmStrike
  rw [if_neg (by simp [hphase])]
  rw [hfind]
  simp only []
  rw [if_neg (by simp [hecho])]
  rw [if_neg (by simp [halive])]
  rw [hpend]
  simp only []
  rw [if_neg (by simp [hact])]
  rw [if_pos (by simpa using hexp)]

/-- A confirm from a caster no longer holding orbital_strike is a no-op. -/
theorem confirmStrike_noop_item (room : Room) (pid : String) (x y nowMs : ℚ)
    (player : Player) (pending : PendingStrike)
    (hphase : room.matchPhase = MatchPhase.playing)
    (hfind : findPlayer room.players pid = some player)
    (hecho : player.isEcho = false) (halive : player.alive = true)
    (hpend : ((room.pendingStrikes.find? (fun e => e.1 == pid)).map Prod.snd) =
      some pending)
    (hact : pending.active = true) (hexp : ¬nowMs > pending.expiresAtMs)
    (hheld : player.heldItem ≠ some Ability.orbital_strike) :
    confirmStrike room pid x y nowMs = room := by
  unfold confirmStrike
  rw [if_neg (by simp [hphase])]
  rw [hfind]
  simp only []
  rw [if_neg (by simp [hecho])]
  rw [if_neg (by simp [halive])]
  rw [hpend]
  simp only []
  rw [if_neg (by simp [hact])]
  rw [if_neg (by simp [hexp])]
  rw [if_pos hheld]

/-- Detonation timing for a single pending strike: nothing happens before
explodeAtMs, and at or after it the strike is resolved and dropped. -/
theorem updateStrikes_single (room : Room) (nowMs : ℚ) (evs : List GEvent) (s : Strike)
    (hphase : room.matchPhase = MatchPhase.playing) (hs : room.strikes = [s]) :
    (nowMs < s.explodeAtMs →
      (updateStrikes room nowMs evs).1.players = room.players ∧
      (updateStrikes room nowMs evs).1.strikes = [s] ∧
      (updateStrikes room nowMs evs).2 = evs) ∧
    (s.explodeAtMs ≤ nowMs →
      (updateStrikes room nowMs evs).1.players =
        (resolveStrike s nowMs room.players room.shieldUntil evs).1 ∧
      (updateStrikes room nowMs evs).1.strikes = [] ∧
      (updateStrikes room nowMs evs).2 =
        (resolveStrike s nowMs room.players room.shieldUntil evs).2.2) := by
  unfold updateStrikes
  rw [if_neg (by simp [hphase]), hs]
  rw [List.foldl_cons, List.foldl_nil]
  simp only []
  constructor
  · intro hlt
    rw [if_neg (by simpa using not_le.mpr hlt)]
    exact ⟨rfl, rfl, rfl⟩
  · intro hge
    rw [if_pos (by simpa using hge)]
    exact ⟨rfl, rfl, rfl⟩

/-- Blast body, plain damage: an alive, unshielded, non-exempt target inside
the circle whose hp survives the 2 damage just loses strike.damage hp and a
hit event is pushed. -/
theorem strikePlayerStep_damages (strike : Strike) (nowMs : ℚ) (ps : List Player)
    (su : List (String × ℚ)) (evs : List GEvent) (pid : String) (target : Player)
    (hfind : findPlayer ps pid = some target) (halive : target.alive = true)
    (hin : pointInCircle target.x target.y strike.x strike.y strike.r = true)
    (hsh : (!target.isEcho && isShieldActive ps su target.id nowMs) = false)
    (hexempt : (target.isEcho && target.ownerId == some strike.byId) = false)
    (hhp : ¬target.hp - strike.damage ≤ 0) :
    strikePlayerStep strike nowMs (ps, su, evs) pid =
      (updatePlayer ps pid (fun q => { q with hp := target.hp - strike.damage }), su,
       evs ++ [GEvent.hit target.id strike.byId]) := by
  unfold strikePlayerStep
  simp only []
  rw [hfind]
  simp only []
  rw [if_neg (by simp [halive])]
  rw [if_neg (by simp [hin])]
  rw [if_neg (by simp [hsh])]
  rw [if_neg (by simp [hexempt])]
  rw [if_neg hhp]

/-- Blast body, shield exemption: an alive shielded non-echo target inside
the circle takes a shield hit instead of damage, keeping its hp. -/
theorem strikePlayerStep_shielded (strike : Strike) (nowMs : ℚ) (ps : List Player)
    (su : List (String × ℚ)) (evs : List GEvent) (pid : String) (target : Player)
    (hfind : findPlayer ps pid = some target) (halive : target.alive = true)
    (hin : pointInCircle target.x target.y strike.x strike.y strike.r = true)
    (hecho : target.isEcho = false)
    (hsh : isShieldActive ps su target.id nowMs = true) :
    (findPlayer (strikePlayerStep strike nowMs (ps, su, evs) pid).1 pid).map
        (fun q => q.hp) =
      (findPlayer ps pid).map (fun q => q.hp) := by
  unfold strikePlayerStep
  simp only []
  rw [hfind]
  simp only []
  rw [if_neg (by simp [halive])]
  rw [if_neg (by simp [hin])]
  rw [if_pos (by simp [hecho, hsh])]
  have h := handleShieldHit_hp ps su evs target.id pid nowMs
  rw [hfind] at h
  exact h

/-- Blast body, caster echo exemption: an echo owned by the strike caster is
skipped entirely. -/
theorem strikePlayerStep_casterEcho (strike : Strike) (nowMs : ℚ) (ps : List Player)
    (su : List (String × ℚ)) (evs : List GEvent) (pid : String) (target : Player)
    (hfind : findPlayer ps pid = some target) (halive : target.alive = true)
    (hin : pointInCircle target.x target.y strike.x strike.y strike.r = true)
    (hecho : target.isEcho = true) (hown : target.ownerId = some strike.byId) :
    strikePlayerStep strike nowMs (ps, su, evs) pid = (ps, su, evs) := by
  unfold strikePlayerStep
  simp only []
  rw [hfind]
  simp only []
  rw [if_neg (by simp [halive])]
  rw [if_neg (by simp [hin])]
  rw [if_neg (by simp [hecho])]
  rw [if_pos (by simp [hecho, hown])]

/-- Fixture for C7: the strike caster. -/
def c7Caster : Player := { id := "C", x := 100, y := 100, hp := 3 }

/-- Fixture for C7: a shielded entity 50 units from the strike center. -/
def c7Shielded : Player := { id := "W", x := 650, y := 400, hp := 3, shieldHp := some 2 }

/-- Fixture for C7: a committed strike at (600, 400). -/
def c7Strike : Strike :=
  { id := "s1", x := 600, y := 400, explodeAtMs := 1000, r := 120, damage := 2,
    byId := "C" }

/-- Counterexample to the claim: an alive entity well inside the 120-unit
blast circle whose shield is active takes no damage at all (the detonation
consumes a shield charge instead), so the strike does not deal 2 damage to
every alive entity within 120 units. -/
theorem strike_shield_exemption_counterexample :
    pointInCircle c7Shielded.x c7Shielded.y c7Strike.x c7Strike.y c7Strike.r = true ∧
    c7Shielded.alive = true ∧
    ((findPlayer (resolveStrike c7Strike 1000 [c7Caster, c7Shielded]
        [("W", 9999)] []).1 "W").map (fun q => q.hp)) = some 3 ∧
    ¬((3 : ℚ) = 3 - 2) := by decide

/-- Claim C7 (corrected): activating a held orbital strike arms a 5 second
targeting window without touching the roster or the held item; a valid
confirm inside the window commits a strike that detonates 1000 ms later
with radius 120 and damage 2 at the clamped target, clearing the window and
the held item; a confirm outside the window, without the held item, or
while the match is not playing commits nothing; on detonation each alive
entity inside the circle loses 2 hp unless it is shielded (a shield charge
absorbs the blast, hp unchanged) or is an echo of the caster (skipped), and
exactly one strike_boom event is emitted. -/
theorem orbital_strike_lifecycle :
    (∀ (room : Room) (pid : String) (nowMs : ℚ) (player : Player),
      findPlayer room.players pid = some player →
      player.heldItem = some Ability.orbital_strike →
      player.alive = true → player.isEcho = false →
      room.pendingStrikes.find? (fun e => e.1 == pid) = none →
      (activateOrbital room pid nowMs).players = room.players ∧
      (((activateOrbital room pid nowMs).pendingStrikes.find?
          (fun e => e.1 == pid)).map Prod.snd) =
        some { active := true, expiresAtMs := nowMs + 5000 }) ∧
    (∀ (room : Room) (pid : String) (x y nowMs : ℚ) (player : Player)
        (pending : PendingStrike),
      room.matchPhase = MatchPhase.playing →
      findPlayer room.players pid = some player →
      player.isEcho = false → player.alive = true →
      ((room.pendingStrikes.find? (fun e => e.1 == pid)).map Prod.snd) = some pending →
      pending.active = true → ¬nowMs > pending.expiresAtMs →
      player.heldItem = some Ability.orbital_strike →
      (confirmStrike room pid x y nowMs).strikes = room.strikes ++
        [{ id := room.roomId ++ "-s-" ++ toString room.strikeSeq,
           x := clampQ x 0 ARENA_W, y := clampQ y 0 ARENA_H,
           explodeAtMs := nowMs + 1000, r := 120, damage := 2, byId := pid }] ∧
      ((findPlayer (confirmStrike room pid x y nowMs).players pid).map
          (fun q => q.heldItem)) = some none ∧
      ((confirmStrike room pid x y nowMs).pendingStrikes.find?
        (fun e => e.1 == pid)) = none ∧
      (confirmStrike room pid x y nowMs).pendingEvents = room.pendingEvents ++
        [GEvent.strikeMark (room.roomId ++ "-s-" ++ toString room.strikeSeq)
          (clampQ x 0 ARENA_W) (clampQ y 0 ARENA_H) 1000]) ∧
    (∀ (room : Room) (pid : String) (x y nowMs : ℚ),
      room.matchPhase ≠ MatchPhase.playing →
      confirmStrike room pid x y nowMs = room) ∧
    (∀ (room : Room) (pid : String) (x y nowMs : ℚ) (player : Player)
        (pending : PendingStrike),
      room.matchPhase = MatchPhase.playing →
      findPlayer room.players pid = some player →
      player.isEcho = false → player.alive = true →
      ((room.pendingStrikes.find? (fun e => e.1 == pid)).map Prod.snd) = some pending →
      pending.active = true → nowMs > pending.expiresAtMs →
      confirmStrike room pid x y nowMs = room) ∧
    (∀ (room : Room) (pid : String) (x y nowMs : ℚ) (player : Player)
        (pending : PendingStrike),
      room.matchPhase = MatchPhase.playing →
      findPlayer room.players pid = some player →
      player.isEcho = false → player.alive = true →
      ((room.pendingStrikes.find? (fun e => e.1 == pid)).map Prod.snd) = some pending →
      pending.active = true → ¬nowMs > pending.expiresAtMs →
      player.heldItem ≠ some Ability.orbital_strike →
      confirmStrike room pid x y nowMs = room) ∧
    (∀ (room : Room) (nowMs : ℚ) (evs : List GEvent) (s : Strike),
      room.matchPhase = MatchPhase.playing → room.strikes = [s] →
      (nowMs < s.explodeAtMs →
        (updateStrikes room nowMs evs).1.players = room.players ∧
        (updateStrikes room nowMs evs).1.strikes = [s] ∧
        (updateStrikes room nowMs evs).2 = evs) ∧
      (s.explodeAtMs ≤ nowMs →
        (updateStrikes room nowMs evs).1.players =
          (resolveStrike s nowMs room.players room.shieldUntil evs).1 ∧
        (updateStrikes room nowMs evs).1.strikes = [] ∧
        (updateStrikes room nowMs evs).2 =
          (resolveStrike s nowMs room.players room.shieldUntil evs).2.2)) ∧
    (∀ (strike : Strike) (nowMs : ℚ) (ps : List Player) (su : List (String × ℚ))
        (evs : List GEvent) (pid : String) (target : Player),
      findPlayer ps pid = some target → target.alive = true →
      pointInCircle target.x target.y strike.x strike.y strike.r = true →
      (!target.isEcho && isShieldActive ps su target.id nowMs) = false →
      (target.isEcho && target.ownerId == some strike.byId) = false →
      ¬target.hp - strike.damage ≤ 0 →
      strikePlayerStep strike nowMs (ps, su, evs) pid =
        (updatePlayer ps pid (fun q => { q with hp := target.hp - strike.damage }), su,
         evs ++ [GEvent.hit target.id strike.byId])) ∧
    (∀ (strike : Strike) (nowMs : ℚ) (ps : List Player) (su : List (String × ℚ))
        (evs : List GEvent) (pid : String) (target : Player),
      findPlayer ps pid = some target → target.alive = true →
      pointInCircle target.x target.y strike.x strike.y strike.r = true →
      target.isEcho = false → isShieldActive ps su target.id nowMs = true →
      (findPlayer (strikePlayerStep strike nowMs (ps, su, evs) pid).1 pid).map
          (fun q => q.hp) =
        (findPlayer ps pid).map (fun q => q.hp)) ∧
    (∀ (strike : Strike) (nowMs : ℚ) (ps : List Player) (su : List (String × ℚ))
        (evs : List GEvent) (pid : String) (target : Player),
      findPlayer ps pid = some target → target.alive = true →
      pointInCircle target.x target.y strike.x strike.y strike.r = true →
      target.isEcho = true → target.ownerId = some strike.byId →
      strikePlayerStep strike nowMs (ps, su, evs) pid = (ps, su, evs)) ∧
    (∀ (strike : Strike) (nowMs : ℚ) (ps : List Player) (su : List (String × ℚ))
        (evs : List GEvent),
      boomCount (resolveStrike strike nowMs ps su evs).2.2 = boomCount evs + 1) :=
  ⟨activateOrbital_arms, confirmStrike_commits, confirmStrike_noop_phase,
   confirmStrike_noop_expired, confirmStrike_noop_item, updateStrikes_single,
   strikePlayerStep_damages, strikePlayerStep_shielded, strikePlayerStep_casterEcho,
   resolveStrike_boomCount⟩

/-- Fixture for the C7 witness: a live caster holding orbital_strike. -/
def c7Armed : Player :=
  { id := "A", x := 60, y := 60, hp := 3, heldItem := some Ability.orbital_strike }

/-- Fixture for the C7 witness. -/
def c7Room : Room :=
  { roomId := "r", players := [c7Armed], bullets := [], echoes := [],
    inputBuffer := [], zones := [], strikes := [], pendingStrikes := [],
    pendingEvents := [], portals := [], pendingPortals := [],
    portalCooldownUntil := [], botAi := [], shieldUntil := [], lastShotAt := [],
    matchPhase := MatchPhase.playing, startedAtMs := none, endsAtMs := none,
    durationSec := 180, hostId := "A", maxHp := 3, strikeSeq := 0, bulletSeq := 0 }

/-- Witness for C7: the arming rule applied to a concrete caster — the
roster is untouched and the window expires at 5000. -/
theorem orbital_strike_lifecycle_witness :
    (activateOrbital c7Room "A" 0).players = c7Room.players ∧
    (((activateOrbital c7Room "A" 0).pendingStrikes.find?
        (fun e => e.1 == "A")).map Prod.snd) =
      some { active := true, expiresAtMs := (0 : ℚ) + 5000 } :=
  orbital_strike_lifecycle.1 c7Room "A" 0 c7Armed (by decide) rfl rfl rfl rfl

/-! ## Claim C4 -/

/-- tryShoot never moves anyone: it only appends a bullet and bumps the
shot bookkeeping. -/
theorem tryShoot_players (room : Room) (shooter : Player) (aim : Vec2) (nowMs : ℚ)
    (ownerRootId : String) :
    (tryShoot room shooter aim nowMs ownerRootId).players = room.players := by
  unfold tryShoot
  simp only []
  split
  · rfl
  · split
    · rfl
    · rfl

/-- findPlayer after updatePlayer under the key, for any update that keeps
the id of the stored entry. -/
theorem findPlayer_update_self2 (ps : List Player) (pid : String) (f : Player → Player)
    (hf : ∀ p, p.id = pid → (f p).id = p.id) :
    findPlayer (updatePlayer ps pid f) pid = (findPlayer ps pid).map f := by
  induction ps with
  | nil => rfl
  | cons p ps ih =>
    show List.find? (fun q => q.id == pid) ((if (p.id == pid) = true then f p else p) ::
        updatePlayer ps pid f) = _
    cases h : (p.id == pid) with
    | true =>
      have hpe : p.id = pid := by simpa using h
      have hfp : ((f p).id == pid) = true := by rw [hf p hpe]; exact h
      rw [if_pos rfl]
      rw [find_cons_pos (fun q => q.id == pid) (f p) _ hfp]
      show _ = (List.find? (fun q => q.id == pid) (p :: ps)).map f
      rw [find_cons_pos (fun q => q.id == pid) p ps h]
      rfl
    | false =>
      rw [if_neg (by simp [h])]
      rw [find_cons_neg (fun q => q.id == pid) p (updatePlayer ps pid f) h]
      show _ = (List.find? (fun q => q.id == pid) (p :: ps)).map f
      rw [find_cons_neg (fun q => q.id == pid) p ps h]
      exact ih

/-- On a list sorted newest first, the first entry at or before the target
is the latest such entry. -/
theorem find_desc_latest (targetMs : ℚ) :
    ∀ (l : List BufferedInput), l.Pairwise (fun a b => b.tMs ≤ a.tMs) →
    ∀ e, l.find? (fun e => decide (e.tMs ≤ targetMs)) = some e →
    ∀ e2 ∈ l, e2.tMs ≤ targetMs → e2.tMs ≤ e.tMs := by
  intro l
  induction l with
  | nil => intro _ e he; cases he
  | cons a l ih =>
    intro hp e he e2 he2 hle2
    rw [List.pairwise_cons] at hp
    cases ha : decide (a.tMs ≤ targetMs) with
    | true =>
      rw [find_cons_pos _ a l ha] at he
      cases he
      rcases List.mem_cons.mp he2 with h | h
      · rw [h]
      · exact hp.1 e2 h
    | false =>
      rw [find_cons_neg _ a l ha] at he
      rcases List.mem_cons.mp he2 with h | h
      · rw [h] at hle2
        exact absurd hle2 (by simpa using ha)
      · exact ih hp.2 e he e2 h hle2

/-- findBufferedInput on a chronologically buffered history returns exactly
the latest entry stamped at or before the target: none exactly when no entry
is old enough, otherwise a buffered entry at or before the target that every
other such entry precedes. -/
theorem findBufferedInput_latest (history : List BufferedInput) (targetMs : ℚ)
    (hsorted : history.Pairwise (fun a b => a.tMs ≤ b.tMs)) :
    (findBufferedInput history targetMs = none ↔
      ∀ e ∈ history, ¬e.tMs ≤ targetMs) ∧
    (∀ e, findBufferedInput history targetMs = some e →
      e ∈ history ∧ e.tMs ≤ targetMs ∧
      ∀ e2 ∈ history, e2.tMs ≤ targetMs → e2.tMs ≤ e.tMs) := by
  constructor
  · unfold findBufferedInput
    rw [List.find?_eq_none]
    constructor
    · intro h e he
      have := h e (List.mem_reverse.mpr he)
      simpa using this
    · intro h e he
      have := h e (List.mem_reverse.mp he)
      simpa using this
  · intro e he
    rw [findBufferedInput] at he
    have hmem : e ∈ history.reverse := List.mem_of_find?_eq_some he
    have hpe := List.find?_some (p := fun (b : BufferedInput) => decide (b.tMs ≤ targetMs)) he
    have hdesc : history.reverse.Pairwise (fun a b => b.tMs ≤ a.tMs) := by
      rw [List.pairwise_reverse]
      exact hsorted
    refine ⟨List.mem_reverse.mp hmem, by simpa using hpe, ?_⟩
    intro e2 he2 hle2
    exact find_desc_latest targetMs history.reverse hdesc e he e2
      (List.mem_reverse.mpr he2) hle2

/-- No old-enough buffered input: the tick leaves the room (and so the echo
position) untouched. -/
theorem processEcho_noInput (nowMs dtSeconds : ℚ) (allowShoot : Bool) (room : Room)
    (echoId : String) (meta : EchoMeta) (echo : Player)
    (hfind : findPlayer room.players echoId = some echo)
    (hexp : ¬nowMs ≥ meta.expiresAtMs)
    (hbuf : findBufferedInput
        (((room.inputBuffer.find? (fun e => e.1 == meta.ownerId)).map Prod.snd).getD [])
        (nowMs - 900) = none) :
    processEcho nowMs dtSeconds allowShoot room (echoId, meta) = room := by
  unfold processEcho
  simp only []
  rw [hfind]
  simp only []
  rw [if_neg hexp]
  rw [hbuf]

/-- With a buffered input found at the 900 ms offset, the echo position
this tick is exactly applyMovement applied to that input (a shot fired by
the replay never moves anyone). -/
theorem processEcho_replay (nowMs dtSeconds : ℚ) (allowShoot : Bool) (room : Room)
    (echoId : String) (meta : EchoMeta) (echo : Player) (buffered : BufferedInput)
    (hfind : findPlayer room.players echoId = some echo)
    (hexp : ¬nowMs ≥ meta.expiresAtMs)
    (hbuf : findBufferedInput
        (((room.inputBuffer.find? (fun e => e.1 == meta.ownerId)).map Prod.snd).getD [])
        (nowMs - 900) = some buffered)
    (halive : echo.alive = true) :
    ((findPlayer (processEcho nowMs dtSeconds allowShoot room (echoId, meta)).players
        echoId).map (fun q => (q.x, q.y))) =
      some ((applyMovement echo buffered.keys dtSeconds
          (getTimeBubbleMoveMultAt room.zones echo.x echo.y)).x,
        (applyMovement echo buffered.keys dtSeconds
          (getTimeBubbleMoveMultAt room.zones echo.x echo.y)).y) := by
  have hid : echo.id = echoId := findPlayer_id _ _ _ hfind
  unfold processEcho
  simp only []
  rw [hfind]
  simp only []
  rw [if_neg hexp]
  rw [hbuf]
  simp only []
  rw [if_neg (by simp [halive])]
  set echo1 := applyMovement echo buffered.keys dtSeconds
    (getTimeBubbleMoveMultAt room.zones echo.x echo.y) with hechod
  have hid1 : echo1.id = echo.id := by
    rw [hechod]
    unfold applyMovement
    repeat' split
    all_goals rfl
  have hkey : findPlayer (updatePlayer room.players echoId (fun _ => echo1)) echoId =
      some echo1 := by
    rw [findPlayer_update_self2 room.players echoId (fun _ => echo1)
      (fun p hp => by rw [hid1, hid, hp]), hfind]
    rfl
  split
  · rw [tryShoot_players]
    show ((findPlayer (updatePlayer room.players echoId (fun _ => echo1))
        echoId).map (fun q => (q.x, q.y))) = _
    rw [hkey]
    rfl
  · show ((findPlayer (updatePlayer room.players echoId (fun _ => echo1))
        echoId).map (fun q => (q.x, q.y))) = _
    rw [hkey]
    rfl

/-- updateEchoes over a singleton echoes map is exactly one processEcho
step. -/
theorem updateEchoes_singleton (nowMs dtSeconds : ℚ) (allowShoot : Bool) (room : Room)
    (echoId : String) (meta : EchoMeta) (h : room.echoes = [(echoId, meta)]) :
    updateEchoes nowMs dtSeconds allowShoot room =
      processEcho nowMs dtSeconds allowShoot room (echoId, meta) := by
  unfold updateEchoes
  rw [h]
  rfl

/-- Claim C4: echo replay determinism.  (1) On a chronologically ordered
input history, findBufferedInput returns exactly the latest entry stamped
at or before the target time (and none exactly when no entry is that old);
per tick the target is nowMs - 900.  (2) When no buffered input at or
before nowMs - 900 exists, the tick leaves the room, hence the echo
position, unchanged.  (3) When one exists and the echo is alive, the echo
position after the tick is applyMovement of that input (replay shooting
never moves anyone).  (4) The echoes pass is processEcho over the echo
entries. -/
theorem echo_replay_determinism :
    (∀ (history : List BufferedInput) (targetMs : ℚ),
      history.Pairwise (fun a b => a.tMs ≤ b.tMs) →
      (findBufferedInput history targetMs = none ↔
        ∀ e ∈ history, ¬e.tMs ≤ targetMs) ∧
      (∀ e, findBufferedInput history targetMs = some e →
        e ∈ history ∧ e.tMs ≤ targetMs ∧
        ∀ e2 ∈ history, e2.tMs ≤ targetMs → e2.tMs ≤ e.tMs)) ∧
    (∀ (nowMs dtSeconds : ℚ) (allowShoot : Bool) (room : Room) (echoId : String)
        (meta : EchoMeta) (echo : Player),
      findPlayer room.players echoId = some echo →
      ¬nowMs ≥ meta.expiresAtMs →
      findBufferedInput
        (((room.inputBuffer.find? (fun e => e.1 == meta.ownerId)).map Prod.snd).getD [])
        (nowMs - 900) = none →
      processEcho nowMs dtSeconds allowShoot room (echoId, meta) = room) ∧
    (∀ (nowMs dtSeconds : ℚ) (allowShoot : Bool) (room : Room) (echoId : String)
        (meta : EchoMeta) (echo : Player) (buffered : BufferedInput),
      findPlayer room.players echoId = some echo →
      ¬nowMs ≥ meta.expiresAtMs →
      findBufferedInput
        (((room.inputBuffer.find? (fun e => e.1 == meta.ownerId)).map Prod.snd).getD [])
        (nowMs - 900) = some buffered →
      echo.alive = true →
      ((findPlayer (processEcho nowMs dtSeconds allowShoot room (echoId, meta)).players
          echoId).map (fun q => (q.x, q.y))) =
        some ((applyMovement echo buffered.keys dtSeconds
            (getTimeBubbleMoveMultAt room.zones echo.x echo.y)).x,
          (applyMovement echo buffered.keys dtSeconds
            (getTimeBubbleMoveMultAt room.zones echo.x echo.y)).y)) ∧
    (∀ (nowMs dtSeconds : ℚ) (allowShoot : Bool) (room : Room) (echoId : String)
        (meta : EchoMeta),
      room.echoes = [(echoId, meta)] →
      updateEchoes nowMs dtSeconds allowShoot room =
        processEcho nowMs dtSeconds allowShoot room (echoId, meta)) :=
  ⟨findBufferedInput_latest, processEcho_noInput, processEcho_replay,
   updateEchoes_singleton⟩

/-- Fixture for the C4 witness: an owner input history with entries at 0,
50 and 200 ms. -/
def c4Keys : Keys := { up := false, down := false, left := false, right := true }

/-- Fixture for the C4 witness. -/
def c4History : List BufferedInput :=
  [{ tMs := 0, keys := c4Keys, aim := { x := 0, y := 0 }, shoot := false },
   { tMs := 50, keys := c4Keys, aim := { x := 0, y := 0 }, shoot := false },
   { tMs := 200, keys := c4Keys, aim := { x := 0, y := 0 }, shoot := false }]

/-- Witness for C4: on the concrete sorted history the lookup at target
100 returns the 50 ms entry, the latest one at or before the target. -/
theorem echo_replay_determinism_witness :
    (findBufferedInput c4History 100 = none ↔ ∀ e ∈ c4History, ¬e.tMs ≤ 100) ∧
    (∀ e, findBufferedInput c4History 100 = some e →
      e ∈ c4History ∧ e.tMs ≤ 100 ∧
      ∀ e2 ∈ c4History, e2.tMs ≤ 100 → e2.tMs ≤ e.tMs) :=
  echo_replay_determinism.1 c4History 100 (by decide)

end WebShooter
